import Mathlib

/-!
Verification of the `analyze-business` edge function
(`src/supabase/functions/analyze-business/index.ts`).

The TypeScript source is shallowly embedded: JavaScript numbers are modelled
as rationals (`ℚ`), strings as `String` / `List Char`, fallible primitives as
`Option`.  `Option ℚ` results use `none` for JavaScript `NaN`.  `Math.round`
is `⌊x + 1/2⌋` (JavaScript rounds half toward +∞), `Math.ceil` is `⌈x⌉`, and
the JavaScript `x || d` fallback (which replaces `0` by `d`) is `orDefault`.
-/

namespace AskAiBiz

/-- JavaScript `Math.round`: rounds half toward positive infinity. -/
def roundq (x : ℚ) : ℤ := ⌊x + 1/2⌋

/-- JavaScript `x || d` on numbers: `0` (and `NaN`, absent in `ℚ`) falls back to `d`. -/
def orDefault (x d : ℚ) : ℚ := if x = 0 then d else x

/-- A character matched by the regex class `[\d.]` (a decimal digit or a dot). -/
def isNumChar (c : Char) : Bool := c.isDigit || c = '.'

/-- The cleaning step of `parseBudget`:
`budget.replace(/[₹$,\s]/g, '').toLowerCase()`, viewed as a character list. -/
def cleanBudget (s : String) : List Char :=
  (s.toList.filter (fun c => !(c = '₹' || c = '$' || c = ',' || c.isWhitespace))).map Char.toLower

/-- `pat` occurs as a contiguous substring of `l` (JavaScript `String.includes`). -/
def containsSeq (pat : List Char) : List Char → Bool
  | [] => pat.isPrefixOf []
  | c :: t => pat.isPrefixOf (c :: t) || containsSeq pat t

/-- The multiplier selection chain of `parseBudget` (lakh/lac, then crore/cr,
then a trailing bare `l`, then `k`, otherwise 1), applied to the cleaned
character list. -/
def budgetMultiplier (clean : List Char) : ℚ :=
  if containsSeq "lakh".toList clean || containsSeq "lac".toList clean then 100000
  else if containsSeq "crore".toList clean || containsSeq "cr".toList clean then 10000000
  else if clean.getLast? = some 'l' then 100000
  else if containsSeq "k".toList clean then 1000
  else 1

/-- `clean.match(/[\d.]+/)`: the first maximal run of digit-or-dot characters. -/
def firstNumRun : List Char → Option (List Char)
  | [] => none
  | c :: t => if isNumChar c then some (c :: t.takeWhile isNumChar) else firstNumRun t

/-- Numeric value of a list of decimal digit characters. -/
def digitsToNat (l : List Char) : ℕ := l.foldl (fun a c => 10 * a + (c.toNat - 48)) 0

/-- JavaScript `parseFloat` restricted to a `[\d.]+` run: an integer part,
optionally a dot and a fractional part; `NaN` (`none`) when the run contains
no digit before its second dot. -/
def parseFloatRun (l : List Char) : Option ℚ :=
  let d1 := l.takeWhile Char.isDigit
  match l.drop d1.length with
  | '.' :: r2 =>
    let d2 := r2.takeWhile Char.isDigit
    if d1.isEmpty && d2.isEmpty then none
    else some ((digitsToNat d1 : ℚ) + (digitsToNat d2 : ℚ) / 10 ^ d2.length)
  | _ => if d1.isEmpty then none else some ((digitsToNat d1 : ℚ))

/-- `parseBudget` from the source: default 500000 for empty or sentinel input,
otherwise clean, choose a multiplier, extract the first numeric run and
multiply; `none` models a `NaN` result. -/
def parseBudget (budget : String) : Option ℚ :=
  if budget = "" ∨ budget = "Not specified" then some 500000
  else
    let clean := cleanBudget budget
    let multiplier := budgetMultiplier clean
    match firstNumRun clean with
    | none => some 500000
    | some run => (parseFloatRun run).map (· * multiplier)


/-- JavaScript `\w` (word character): ASCII letter, digit or underscore. -/
def isWordChar (c : Char) : Bool := c.isAlphanum || c = '_'

/-- Step 1 of `sanitizeString`: `.replace(/<[^>]*>/g, '')`.  A `<` that is
followed (anywhere later) by a `>` opens a tag that ends at the first such
`>`; a `<` with no later `>` does not match and is kept. -/
def stripTags : List Char → List Char
  | [] => []
  | c :: rest =>
    if c = '<' then
      if h : '>' ∈ rest then stripTags (rest.drop (rest.indexOf '>' + 1))
      else c :: stripTags rest
    else c :: stripTags rest
termination_by l => l.length
decreasing_by
  · simp only [List.length_drop, List.length_cons]; omega
  · simp
  · simp

/-- Global case-insensitive removal of a fixed literal pattern
(`.replace(/pat/gi, '')`, scanning left to right, continuing after each
removed match). -/
def removeAllCI (pat : List Char) : List Char → List Char
  | [] => []
  | c :: rest =>
    if h : pat ≠ [] ∧ pat.isPrefixOf ((c :: rest).map Char.toLower) then
      removeAllCI pat ((c :: rest).drop pat.length)
    else c :: removeAllCI pat rest
termination_by l => l.length
decreasing_by
  · simp only [List.length_drop, List.length_cons]
    have : 1 ≤ pat.length := List.length_pos.2 h.1
    omega
  · simp

/-- Global case-sensitive removal of a fixed literal pattern
(`.replace(/pat/g, '')`). -/
def removeAll (pat : List Char) : List Char → List Char
  | [] => []
  | c :: rest =>
    if h : pat ≠ [] ∧ pat.isPrefixOf (c :: rest) then
      removeAll pat ((c :: rest).drop pat.length)
    else c :: removeAll pat rest
termination_by l => l.length
decreasing_by
  · simp only [List.length_drop, List.length_cons]
    have : 1 ≤ pat.length := List.length_pos.2 h.1
    omega
  · simp

/-- Step 3 of `sanitizeString`: `.replace(/on\w+\s*=/gi, '')`.  A match is
`o`/`n` (case-insensitive), a maximal nonempty word-character run, a maximal
whitespace run, then `=`; shortening the greedy runs can never produce a
match, so maximal runs are faithful to the regex. -/
def removeOnAttr : List Char → List Char
  | [] => []
  | [c] => [c]
  | c1 :: c2 :: rest =>
    if h : c1.toLower = 'o' ∧ c2.toLower = 'n' ∧
        (let w := rest.takeWhile isWordChar
         let afterSp := (rest.drop w.length).dropWhile Char.isWhitespace
         w ≠ [] ∧ afterSp.head? = some '=') then
      removeOnAttr ((((rest.drop (rest.takeWhile isWordChar).length).dropWhile
        Char.isWhitespace)).drop 1)
    else c1 :: removeOnAttr (c2 :: rest)
termination_by l => l.length
decreasing_by
  · have h1 := (List.dropWhile_sublist (l := rest.drop (rest.takeWhile isWordChar).length)
      Char.isWhitespace).length_le
    simp only [List.length_drop, List.length_cons] at h1 ⊢
    omega
  · simp

/-- Step 4 of `sanitizeString`: `.replace(/data:\s*text\/html/gi, '')`. -/
def removeDataHtml : List Char → List Char
  | [] => []
  | c :: rest =>
    if h : ("data:".toList).isPrefixOf ((c :: rest).map Char.toLower) ∧
        ("text/html".toList).isPrefixOf
          ((((c :: rest).drop 5).dropWhile Char.isWhitespace).map Char.toLower) then
      removeDataHtml ((((c :: rest).drop 5).dropWhile Char.isWhitespace).drop 9)
    else c :: removeDataHtml rest
termination_by l => l.length
decreasing_by
  · have h1 := (List.dropWhile_sublist (l := (c :: t).drop 5) Char.isWhitespace).length_le
    simp only [List.length_drop, List.length_cons] at h1 ⊢
    omega
  · simp

/-- JavaScript `String.trim` on a character list. -/
def trimChars (l : List Char) : List Char :=
  ((l.dropWhile Char.isWhitespace).reverse.dropWhile Char.isWhitespace).reverse

/-- `sanitizeString` from the source: strip HTML tags, `javascript:`,
`on…=` handlers, `data:text/html`, `&#` sequences, then trim and cap at
5000 characters.  Non-string input (mapped to `''` in the source) is outside
this `String`-typed model. -/
def sanitizeString (s : String) : String :=
  ⟨(trimChars (removeAll "&#".toList (removeDataHtml (removeOnAttr
      (removeAllCI "javascript:".toList (stripTags s.toList)))))).take 5000⟩

/-- JavaScript `s.slice(0, n)` (code points; code units coincide for the
inputs considered here). -/
def strTake (n : ℕ) (s : String) : String := ⟨s.toList.take n⟩

/-- `sanitizeStringArray` from the source: sanitize each entry, drop empty
results (`filter(Boolean)`), keep at most 20. -/
def sanitizeStringArray (arr : List String) : List String :=
  ((arr.map sanitizeString).filter (fun s => s ≠ "")).take 20


/-- `DynamicFactor` from the source.  Numeric fields are rationals (the
post-`Number()` coercion view of the loosely typed JSON payload). -/
structure DynamicFactor where
  name : String
  weight : ℚ
  score : ℚ
  reasoning : String
  isLocationSpecific : Bool
deriving DecidableEq

/-- `MarketDataPoint` from the source; `confidence` is kept as a raw string
(the TypeScript union type is not enforced at runtime). -/
structure MarketDataPoint where
  metric : String
  minValue : ℚ
  maxValue : ℚ
  estimatedValue : ℚ
  unit : String
  source : String
  confidence : String
deriving DecidableEq

/-- `Pass1Result` from the source. -/
structure Pass1Result where
  factors : List DynamicFactor
  marketData : List MarketDataPoint
  estimatedSetupCostMin : ℚ
  estimatedSetupCostMax : ℚ
  estimatedMonthlyRevenueMin : ℚ
  estimatedMonthlyRevenueMax : ℚ
  estimatedMonthlyExpensesMin : ℚ
  estimatedMonthlyExpensesMax : ℚ
  avgProfitMargin : ℚ
  directCompetitors : ℚ
  indirectCompetitors : ℚ
  marketSize : String
  marketGrowth : String
deriving DecidableEq

/-- The factor branch of `sanitizePass1`: sanitize and cap the strings, clamp
the weight to `[0,1]`, round the score and clamp it to `[0,100]`.
`Number(x) || 0` is `orDefault x 0`, the identity on `ℚ` (it exists to map
`NaN` to 0). -/
def sanitizeFactor (f : DynamicFactor) : DynamicFactor :=
  { name := strTake 100 (sanitizeString f.name)
    weight := max 0 (min 1 (orDefault f.weight 0))
    score := ((max 0 (min 100 (roundq (orDefault f.score 0))) : ℤ) : ℚ)
    reasoning := strTake 500 (sanitizeString f.reasoning)
    isLocationSpecific := f.isLocationSpecific }

/-- The market-data branch of `sanitizePass1`: sanitize and cap the strings
and coerce `confidence` to the allowed enum, defaulting to `low`. -/
def sanitizeMarketData (d : MarketDataPoint) : MarketDataPoint :=
  { metric := strTake 100 (sanitizeString d.metric)
    minValue := orDefault d.minValue 0
    maxValue := orDefault d.maxValue 0
    estimatedValue := orDefault d.estimatedValue 0
    unit := strTake 20 (sanitizeString d.unit)
    source := strTake 200 (sanitizeString d.source)
    confidence :=
      if d.confidence = "high" ∨ d.confidence = "medium" ∨ d.confidence = "low"
      then d.confidence else "low" }

/-- `sanitizePass1` from the source: cap the factor list at 10 and the
market-data list at 20, sanitize each entry, clamp the numeric summary
fields, and sanitize the market strings. -/
def sanitizePass1 (data : Pass1Result) : Pass1Result :=
  { data with
    factors := (data.factors.take 10).map sanitizeFactor
    marketData := (data.marketData.take 20).map sanitizeMarketData
    estimatedSetupCostMin := max 0 (orDefault data.estimatedSetupCostMin 0)
    estimatedSetupCostMax := max 0 (orDefault data.estimatedSetupCostMax 0)
    estimatedMonthlyRevenueMin := max 0 (orDefault data.estimatedMonthlyRevenueMin 0)
    estimatedMonthlyRevenueMax := max 0 (orDefault data.estimatedMonthlyRevenueMax 0)
    estimatedMonthlyExpensesMin := max 0 (orDefault data.estimatedMonthlyExpensesMin 0)
    estimatedMonthlyExpensesMax := max 0 (orDefault data.estimatedMonthlyExpensesMax 0)
    avgProfitMargin := max 0 (min 1 (orDefault data.avgProfitMargin 0))
    directCompetitors := ((max 0 (roundq (orDefault data.directCompetitors 0)) : ℤ) : ℚ)
    indirectCompetitors := ((max 0 (roundq (orDefault data.indirectCompetitors 0)) : ℤ) : ℚ)
    marketSize := strTake 200 (sanitizeString data.marketSize)
    marketGrowth := strTake 200 (sanitizeString data.marketGrowth) }

/-- One risk entry of the Pass-3 payload. -/
structure RiskItem where
  risk : String
  severity : String
  mitigation : String
deriving DecidableEq

/-- One roadmap phase of the Pass-3 payload. -/
structure RoadmapPhase where
  phase : String
  duration : String
  tasks : List String
  milestones : List String
deriving DecidableEq

/-- The Pass-3 explanation payload (typed view of the `Record<string,
unknown>` the source sanitizes field by field). -/
structure Pass3Data where
  summary : String
  marketExplanation : String
  competitionExplanation : String
  financialExplanation : String
  competitiveAdvantage : String
  threats : List String
  opportunities : List String
  risks : List RiskItem
  recommendations : List String
  roadmapPhases : List RoadmapPhase
  roadmapExplanation : String
  expertInsights : String
deriving DecidableEq

/-- The risk branch of `sanitizePass3`: severity is coerced to the allowed
enum, defaulting to `medium`. -/
def sanitizeRisk (r : RiskItem) : RiskItem :=
  { risk := sanitizeString r.risk
    severity :=
      if r.severity = "low" ∨ r.severity = "medium" ∨ r.severity = "high"
      then r.severity else "medium"
    mitigation := sanitizeString r.mitigation }

/-- The roadmap branch of `sanitizePass3`. -/
def sanitizePhase (p : RoadmapPhase) : RoadmapPhase :=
  { phase := strTake 100 (sanitizeString p.phase)
    duration := strTake 50 (sanitizeString p.duration)
    tasks := sanitizeStringArray p.tasks
    milestones := sanitizeStringArray p.milestones }

/-- `sanitizePass3` from the source: sanitize every narrative field, cap the
risk list at 10 and the roadmap at 5 phases. -/
def sanitizePass3 (d : Pass3Data) : Pass3Data :=
  { summary := sanitizeString d.summary
    marketExplanation := sanitizeString d.marketExplanation
    competitionExplanation := sanitizeString d.competitionExplanation
    financialExplanation := sanitizeString d.financialExplanation
    competitiveAdvantage := sanitizeString d.competitiveAdvantage
    threats := sanitizeStringArray d.threats
    opportunities := sanitizeStringArray d.opportunities
    risks := (d.risks.take 10).map sanitizeRisk
    recommendations := sanitizeStringArray d.recommendations
    roadmapPhases := (d.roadmapPhases.take 5).map sanitizePhase
    roadmapExplanation := sanitizeString d.roadmapExplanation
    expertInsights := sanitizeString d.expertInsights }


/-- A Pass-1 payload with no factors and all fields zero or empty. -/
def emptyPass1 : Pass1Result where
  factors := []
  marketData := []
  estimatedSetupCostMin := 0
  estimatedSetupCostMax := 0
  estimatedMonthlyRevenueMin := 0
  estimatedMonthlyRevenueMax := 0
  estimatedMonthlyExpensesMin := 0
  estimatedMonthlyExpensesMax := 0
  avgProfitMargin := 0
  directCompetitors := 0
  indirectCompetitors := 0
  marketSize := ""
  marketGrowth := ""

/-- A factor with an out-of-range weight (1.5) and score (150) and a script
tag in its name, as an AI payload could contain. -/
def badFactor : DynamicFactor where
  name := "<script>alert(1)</script>"
  weight := 3 / 2
  score := 150
  reasoning := "r"
  isLocationSpecific := false

/-- A market-data point whose confidence is not one of the allowed values. -/
def badMarketData : MarketDataPoint where
  metric := "m"
  minValue := 0
  maxValue := 0
  estimatedValue := 0
  unit := "u"
  source := "s"
  confidence := "certain"

/-- A Pass-1 payload carrying `badFactor` and an out-of-enum confidence. -/
def badPass1 : Pass1Result :=
  { emptyPass1 with
    factors := [badFactor]
    marketData := [badMarketData] }

/-- A Pass-1 payload with ten factors. -/
def tenFactorPass1 : Pass1Result := { emptyPass1 with factors := List.replicate 10 badFactor }


/-- The GBDT feature vector (`GBDTFeatures` in the source). -/
structure GBDTFeatures where
  avgFactorScore : ℚ
  budgetRatio : ℚ
  competitionDensity : ℚ
  marketGrowthSignal : ℚ
  profitMarginEstimate : ℚ
  locationTierScore : ℚ
  revenueToExpenseRatio : ℚ
  factorVariance : ℚ
  topFactorScore : ℚ
  bottomFactorScore : ℚ
deriving DecidableEq

/-- The keys of `GBDTFeatures` (`keyof GBDTFeatures`). -/
inductive FeatureKey
  | avgFactorScore | budgetRatio | competitionDensity | marketGrowthSignal
  | profitMarginEstimate | locationTierScore | revenueToExpenseRatio
  | factorVariance | topFactorScore | bottomFactorScore
deriving DecidableEq

/-- Dynamic field access `features[stump.featureKey]`. -/
def GBDTFeatures.get (f : GBDTFeatures) : FeatureKey → ℚ
  | .avgFactorScore => f.avgFactorScore
  | .budgetRatio => f.budgetRatio
  | .competitionDensity => f.competitionDensity
  | .marketGrowthSignal => f.marketGrowthSignal
  | .profitMarginEstimate => f.profitMarginEstimate
  | .locationTierScore => f.locationTierScore
  | .revenueToExpenseRatio => f.revenueToExpenseRatio
  | .factorVariance => f.factorVariance
  | .topFactorScore => f.topFactorScore
  | .bottomFactorScore => f.bottomFactorScore

/-- A single-feature decision stump. -/
structure DecisionStump where
  featureKey : FeatureKey
  threshold : ℚ
  leftValue : ℚ
  rightValue : ℚ
  weight : ℚ

/-- The combining operation of an interaction stump. -/
inductive StumpOp
  | multiply | divide | minOp | maxOp
deriving DecidableEq

/-- A two-feature interaction stump. -/
structure InteractionStump where
  featureA : FeatureKey
  featureB : FeatureKey
  operation : StumpOp
  threshold : ℚ
  leftValue : ℚ
  rightValue : ℚ
  weight : ℚ

/-- `DECISION_STUMPS` from the source (19 stumps, constants verbatim). -/
def DECISION_STUMPS : List DecisionStump := [
  ⟨.avgFactorScore, 60, -12, 10, 0.15⟩,
  ⟨.avgFactorScore, 40, -18, 5, 0.12⟩,
  ⟨.avgFactorScore, 75, -3, 12, 0.10⟩,
  ⟨.budgetRatio, 0.5, -20, 5, 0.12⟩,
  ⟨.budgetRatio, 1.0, -8, 6, 0.10⟩,
  ⟨.budgetRatio, 2.0, 2, 3, 0.05⟩,
  ⟨.competitionDensity, 0.3, 8, -5, 0.10⟩,
  ⟨.competitionDensity, 0.7, 3, -12, 0.08⟩,
  ⟨.marketGrowthSignal, 0.2, -6, 7, 0.08⟩,
  ⟨.marketGrowthSignal, 0.5, -2, 8, 0.06⟩,
  ⟨.profitMarginEstimate, 0.15, -15, 5, 0.10⟩,
  ⟨.profitMarginEstimate, 0.30, -3, 8, 0.07⟩,
  ⟨.revenueToExpenseRatio, 1.0, -20, 5, 0.12⟩,
  ⟨.revenueToExpenseRatio, 1.5, -5, 8, 0.08⟩,
  ⟨.factorVariance, 0.4, 3, -6, 0.06⟩,
  ⟨.bottomFactorScore, 25, -15, 3, 0.10⟩,
  ⟨.bottomFactorScore, 40, -8, 4, 0.07⟩,
  ⟨.topFactorScore, 80, -2, 8, 0.05⟩,
  ⟨.locationTierScore, 0.5, -5, 6, 0.06⟩]

/-- `INTERACTION_STUMPS` from the source (6 stumps, constants verbatim). -/
def INTERACTION_STUMPS : List InteractionStump := [
  ⟨.competitionDensity, .budgetRatio, .divide, 0.5, 5, -10, 0.10⟩,
  ⟨.profitMarginEstimate, .marketGrowthSignal, .multiply, 0.08, -5, 10, 0.08⟩,
  ⟨.bottomFactorScore, .competitionDensity, .multiply, 20, 4, -8, 0.07⟩,
  ⟨.revenueToExpenseRatio, .budgetRatio, .minOp, 0.8, -12, 6, 0.09⟩,
  ⟨.topFactorScore, .locationTierScore, .multiply, 40, -3, 7, 0.05⟩,
  ⟨.factorVariance, .competitionDensity, .multiply, 0.15, 3, -8, 0.06⟩]

/-- The contribution of one single-feature stump inside `gbdtPredict`. -/
def stumpContrib (features : GBDTFeatures) (s : DecisionStump) : ℚ :=
  if features.get s.featureKey ≤ s.threshold then s.leftValue * s.weight
  else s.rightValue * s.weight

/-- `computeInteraction` from the source (division guards `b = 0` to 0). -/
def computeInteraction (features : GBDTFeatures) (stump : InteractionStump) : ℚ :=
  let a := features.get stump.featureA
  let b := features.get stump.featureB
  let value : ℚ :=
    match stump.operation with
    | .multiply => a * b
    | .divide => if b ≠ 0 then a / b else 0
    | .minOp => min a b
    | .maxOp => max a b
  if value ≤ stump.threshold then stump.leftValue * stump.weight
  else stump.rightValue * stump.weight

/-- The raw ensemble prediction of `gbdtPredict` before clamping and
rounding: base 50 plus all stump and interaction contributions. -/
def gbdtRaw (features : GBDTFeatures) : ℚ :=
  INTERACTION_STUMPS.foldl (fun acc st => acc + computeInteraction features st)
    (DECISION_STUMPS.foldl (fun acc st => acc + stumpContrib features st) 50)

/-- `gbdtPredict` from the source: clamp the raw prediction to `[0,100]` and
round. -/
def gbdtPredict (features : GBDTFeatures) : ℤ :=
  roundq (min 100 (max 0 (gbdtRaw features)))

/-- The first match of `/([\d.]+)\s*%/`: a maximal digit-or-dot run whose
following whitespace run ends at `%`; greedy runs are faithful because
shortening either run can never enable the required `%`. -/
def firstPercentRun : List Char → Option (List Char)
  | [] => none
  | c :: t =>
    if isNumChar c ∧
        (((t.drop (t.takeWhile isNumChar).length).dropWhile Char.isWhitespace).head?
          = some '%') then
      some (c :: t.takeWhile isNumChar)
    else firstPercentRun t

/-- The growth-percent extraction of `extractFeatures`: 5 when no `%` match
exists; otherwise the parsed captured number.  (A capture with no digit,
e.g. `".%"`, is `NaN` in JavaScript; the rational model maps it to 0.) -/
def growthPercentOf (s : String) : ℚ :=
  match firstPercentRun s.toList with
  | none => 5
  | some run => (parseFloatRun run).getD 0

/-- `extractFeatures` from the source.  `sqrtFn` models `Math.sqrt`, kept
abstract because exact square roots leave `ℚ`; every theorem below holds for
all `sqrtFn`. -/
def extractFeatures (sqrtFn : ℚ → ℚ) (pass1 : Pass1Result) (budgetAmount : ℚ) : GBDTFeatures :=
  let totalWeight := (pass1.factors.map (·.weight)).sum
  let weightedSum := (pass1.factors.map (fun f => f.score * f.weight)).sum
  let maxScore := pass1.factors.foldl (fun m f => if m < f.score then f.score else m) 0
  let minScore := pass1.factors.foldl (fun m f => if f.score < m then f.score else m) 100
  let avgFactorScore := if 0 < totalWeight then weightedSum / totalWeight else 50
  let avgSetupCost :=
    orDefault ((pass1.estimatedSetupCostMin + pass1.estimatedSetupCostMax) / 2) 1
  let budgetRatio := budgetAmount / avgSetupCost
  let totalCompetitors := pass1.directCompetitors + pass1.indirectCompetitors * 0.5
  let competitionDensity := min 1 (totalCompetitors / 50)
  let marketGrowthSignal := min 1 (growthPercentOf pass1.marketGrowth / 30)
  let profitMarginEstimate := max 0 (min 1 (orDefault pass1.avgProfitMargin 0))
  let locationTierScore :=
    match pass1.factors.find? (·.isLocationSpecific) with
    | some f => f.score / 100
    | none => 0.5
  let avgRevenue :=
    orDefault ((pass1.estimatedMonthlyRevenueMin + pass1.estimatedMonthlyRevenueMax) / 2) 1
  let avgExpenses :=
    orDefault ((pass1.estimatedMonthlyExpensesMin + pass1.estimatedMonthlyExpensesMax) / 2) 1
  let revenueToExpenseRatio := avgRevenue / avgExpenses
  let scores := pass1.factors.map (·.score)
  let denom : ℚ := if scores.length = 0 then 1 else scores.length
  let mean := scores.sum / denom
  let variance := (scores.map (fun s => (s - mean) ^ 2)).sum / denom
  let factorVariance := min 1 (sqrtFn variance / 50)
  { avgFactorScore := avgFactorScore
    budgetRatio := min 5 budgetRatio
    competitionDensity := competitionDensity
    marketGrowthSignal := marketGrowthSignal
    profitMarginEstimate := profitMarginEstimate
    locationTierScore := locationTierScore
    revenueToExpenseRatio := min 5 revenueToExpenseRatio
    factorVariance := factorVariance
    topFactorScore := maxScore
    bottomFactorScore := minScore }

/-- The three-way verdict. -/
inductive Verdict
  | GO | CAUTION | AVOID
deriving DecidableEq

/-- One year of the financial projection. -/
structure YearProj where
  year : ℤ
  revenue : ℤ
  expenses : ℤ
  profit : ℤ
deriving DecidableEq

/-- `ScoringResult` from the source. -/
structure ScoringResult where
  score : ℤ
  verdict : Verdict
  factors : List DynamicFactor
  breakEvenMonths : ℤ
  roi : ℤ
  financialProjections : List YearProj
  budgetFitPercent : ℤ
  gbdtFeatures : GBDTFeatures
deriving DecidableEq

/-- `pass2_score` from the source.  `currentYear` models the ambient
`new Date().getFullYear()` clock read; `budgetAmount` is the already parsed
budget (`parseBudget`; its `NaN` case lies outside the rational model).
JavaScript division by zero (`budgetAmount = 0` in the ROI) yields infinity
where the rational model yields 0; no claim exercises that corner. -/
def pass2_score (sqrtFn : ℚ → ℚ) (currentYear : ℤ) (pass1 : Pass1Result)
    (budgetAmount : ℚ) : ScoringResult :=
  let features := extractFeatures sqrtFn pass1 budgetAmount
  let score := gbdtPredict features
  let verdict :=
    if 62 ≤ score ∧ 1/2 ≤ features.budgetRatio then Verdict.GO
    else if score < 35 ∨ features.budgetRatio < 1/4 then Verdict.AVOID
    else Verdict.CAUTION
  let budgetFitPercent := min 100 (roundq (features.budgetRatio * 100))
  let avgSetupCost :=
    orDefault ((pass1.estimatedSetupCostMin + pass1.estimatedSetupCostMax) / 2) 1
  let avgMonthlyRevenue := (pass1.estimatedMonthlyRevenueMin + pass1.estimatedMonthlyRevenueMax) / 2
  let avgMonthlyExpenses :=
    (pass1.estimatedMonthlyExpensesMin + pass1.estimatedMonthlyExpensesMax) / 2
  let confidenceMultiplier := 0.6 + ((score : ℚ) / 100) * 0.8
  let adjustedMonthlyRevenue := avgMonthlyRevenue * confidenceMultiplier
  let adjustedMonthlyProfit := adjustedMonthlyRevenue - avgMonthlyExpenses
  let breakEvenMonths : ℤ :=
    if 0 < adjustedMonthlyProfit then ⌈avgSetupCost / adjustedMonthlyProfit⌉ else 36
  let roi : ℤ :=
    if 0 < adjustedMonthlyProfit then roundq (adjustedMonthlyProfit * 12 / budgetAmount * 100)
    else -(roundq (|adjustedMonthlyProfit| * 12 / budgetAmount * 100))
  let baseGrowth := 0.08 + ((score : ℚ) / 100) * 0.12
  let growthRates : List ℚ :=
    [1, 1 + baseGrowth, 1 + baseGrowth * 2, 1 + baseGrowth * 3, 1 + baseGrowth * 4]
  let financialProjections := growthRates.enum.map (fun gi =>
    let rev := roundq (avgMonthlyRevenue * 12 * gi.2)
    let exp := roundq (avgMonthlyExpenses * 12 * (1 + (gi.1 : ℚ) * 0.05))
    { year := currentYear + gi.1, revenue := rev, expenses := exp,
      profit := rev - exp : YearProj })
  { score := score
    verdict := verdict
    factors := pass1.factors
    breakEvenMonths := breakEvenMonths
    roi := roi
    financialProjections := financialProjections
    budgetFitPercent := budgetFitPercent
    gbdtFeatures := features }

/-- One month of the seasonal breakdown. -/
structure MonthProj where
  month : String
  revenue : ℤ
  expenses : ℤ
  profit : ℤ
deriving DecidableEq

/-- A year record augmented with its monthly breakdown. -/
structure YearWithMonths where
  year : ℤ
  revenue : ℤ
  expenses : ℤ
  profit : ℤ
  months : List MonthProj
deriving DecidableEq

/-- The month names of `generateYearlyWithMonths`. -/
def monthNames : List String :=
  ["Jan", "Feb", "Mar", "Apr", "May", "Jun", "Jul", "Aug", "Sep", "Oct", "Nov", "Dec"]

/-- The fixed seasonal weight vector of `generateYearlyWithMonths`. -/
def seasonalWeights : List ℚ :=
  [0.07, 0.06, 0.08, 0.08, 0.08, 0.08, 0.08, 0.09, 0.09, 0.10, 0.10, 0.09]

/-- `generateYearlyWithMonths` from the source: spread each year record and
attach 12 months; monthly revenue is the seasonal share, monthly expenses
are a flat 1/12, and monthly profit is the rounded difference of the
unrounded share and unrounded 1/12 (computed before rounding). -/
def generateYearlyWithMonths (yearlyData : List YearProj) : List YearWithMonths :=
  yearlyData.map (fun y =>
    { year := y.year, revenue := y.revenue, expenses := y.expenses, profit := y.profit,
      months := monthNames.enum.map (fun mi =>
        { month := mi.2,
          revenue := roundq ((y.revenue : ℚ) * seasonalWeights.getD mi.1 0),
          expenses := roundq ((y.expenses : ℚ) / 12),
          profit := roundq ((y.revenue : ℚ) * seasonalWeights.getD mi.1 0
            - (y.expenses : ℚ) / 12) }) })


/-- A payload whose setup cost (4,000,000) dwarfs the default budget. -/
def poorBudgetPass1 : Pass1Result :=
  { emptyPass1 with estimatedSetupCostMin := 4000000, estimatedSetupCostMax := 4000000 }


/-- JSON values, for modelling the platform `JSON.parse` builtin. -/
inductive Json
  | null
  | bool (b : Bool)
  | num (q : ℚ)
  | str (s : String)
  | arr (elems : List Json)
  | obj (fields : List (String × Json))

/-- JSON insignificant whitespace. -/
def jsonWsp (c : Char) : Bool := c = ' ' || c = '\t' || c = '\n' || c = '\r'

/-- Value of one hexadecimal digit. -/
def hexDigitVal (c : Char) : Option ℕ :=
  if c.isDigit then some (c.toNat - 48)
  else if 'a' ≤ c ∧ c ≤ 'f' then some (c.toNat - 87)
  else if 'A' ≤ c ∧ c ≤ 'F' then some (c.toNat - 55)
  else none

/-- JSON string body (after the opening quote): ordinary characters, the
eight escapes and `\uXXXX`; raw control characters are rejected.  Returns
the decoded characters and the remainder after the closing quote. -/
def parseJStringChars : ℕ → List Char → Option (List Char × List Char)
  | 0, _ => none
  | fuel + 1, l =>
    match l with
    | [] => none
    | c :: rest =>
      if c = '"' then some ([], rest)
      else if c = '\\' then
        match rest with
        | [] => none
        | e :: r2 =>
          if e = '"' then (parseJStringChars fuel r2).map (fun p => ('"' :: p.1, p.2))
          else if e = '\\' then (parseJStringChars fuel r2).map (fun p => ('\\' :: p.1, p.2))
          else if e = '/' then (parseJStringChars fuel r2).map (fun p => ('/' :: p.1, p.2))
          else if e = 'b' then
            (parseJStringChars fuel r2).map (fun p => (Char.ofNat 8 :: p.1, p.2))
          else if e = 'f' then
            (parseJStringChars fuel r2).map (fun p => (Char.ofNat 12 :: p.1, p.2))
          else if e = 'n' then (parseJStringChars fuel r2).map (fun p => ('\n' :: p.1, p.2))
          else if e = 'r' then (parseJStringChars fuel r2).map (fun p => ('\r' :: p.1, p.2))
          else if e = 't' then (parseJStringChars fuel r2).map (fun p => ('\t' :: p.1, p.2))
          else if e = 'u' then
            match r2 with
            | h1 :: h2 :: h3 :: h4 :: r3 =>
              match hexDigitVal h1, hexDigitVal h2, hexDigitVal h3, hexDigitVal h4 with
              | some a, some b, some c3, some d =>
                (parseJStringChars fuel r3).map
                  (fun p => (Char.ofNat (4096 * a + 256 * b + 16 * c3 + d) :: p.1, p.2))
              | _, _, _, _ => none
            | _ => none
          else none
      else if c.toNat < 32 then none
      else (parseJStringChars fuel rest).map (fun p => (c :: p.1, p.2))

/-- Optional JSON fraction part (value, remainder); 0 when absent. -/
def parseJFrac (l : List Char) : Option (ℚ × List Char) :=
  match l with
  | '.' :: r =>
    let ds := r.takeWhile Char.isDigit
    if ds.isEmpty then none
    else some ((digitsToNat ds : ℚ) / 10 ^ ds.length, r.drop ds.length)
  | _ => some (0, l)

/-- Optional JSON exponent part (multiplier, remainder); 1 when absent. -/
def parseJExp (l : List Char) : Option (ℚ × List Char) :=
  match l with
  | c :: r =>
    if c = 'e' ∨ c = 'E' then
      let (esign, r2) : ℤ × List Char :=
        match r with
        | '+' :: rr => (1, rr)
        | '-' :: rr => (-1, rr)
        | _ => (1, r)
      let ds := r2.takeWhile Char.isDigit
      if ds.isEmpty then none
      else some ((10 : ℚ) ^ (esign * (digitsToNat ds : ℤ)), r2.drop ds.length)
    else some (1, c :: r)
  | [] => some (1, [])

/-- JSON number grammar `-?(0|[1-9][0-9]*)(.[0-9]+)?([eE][+-]?[0-9]+)?`,
with its no-leading-zero rule. -/
def parseJNumber (l : List Char) : Option (ℚ × List Char) :=
  let (sign, l1) : ℚ × List Char :=
    match l with
    | '-' :: r => (-1, r)
    | _ => (1, l)
  match l1 with
  | [] => none
  | c :: r =>
    if c = '0' then
      if r.head?.any Char.isDigit then none
      else do
        let (f, r1) ← parseJFrac r
        let (m, r2) ← parseJExp r1
        some (sign * f * m, r2)
    else if c.isDigit then
      let ds := c :: r.takeWhile Char.isDigit
      let rest := r.drop (r.takeWhile Char.isDigit).length
      do
        let (f, r1) ← parseJFrac rest
        let (m, r2) ← parseJExp r1
        some (sign * ((digitsToNat ds : ℚ) + f) * m, r2)
    else none

mutual

/-- One JSON value (fuel-indexed; the fuel only bounds recursion depth and
`jsonParse` supplies enough of it). -/
def parseJValue : ℕ → List Char → Option (Json × List Char)
  | 0, _ => none
  | fuel + 1, l =>
    match l.dropWhile jsonWsp with
    | [] => none
    | c :: rest =>
      if c = '{' then
        match rest.dropWhile jsonWsp with
        | '}' :: r2 => some (.obj [], r2)
        | r1 => (parseJMembers fuel r1).map (fun p => (.obj p.1, p.2))
      else if c = '[' then
        match rest.dropWhile jsonWsp with
        | ']' :: r2 => some (.arr [], r2)
        | r1 => (parseJItems fuel r1).map (fun p => (.arr p.1, p.2))
      else if c = '"' then
        (parseJStringChars (fuel + 1) rest).map (fun p => (.str ⟨p.1⟩, p.2))
      else if c = 't' then
        if ['r', 'u', 'e'].isPrefixOf rest then some (.bool true, rest.drop 3) else none
      else if c = 'f' then
        if ['a', 'l', 's', 'e'].isPrefixOf rest then some (.bool false, rest.drop 4) else none
      else if c = 'n' then
        if ['u', 'l', 'l'].isPrefixOf rest then some (.null, rest.drop 3) else none
      else (parseJNumber (c :: rest)).map (fun p => (.num p.1, p.2))

/-- Comma-separated JSON array items up to `]`. -/
def parseJItems : ℕ → List Char → Option (List Json × List Char)
  | 0, _ => none
  | fuel + 1, l => do
    let (v, r1) ← parseJValue fuel l
    match r1.dropWhile jsonWsp with
    | ',' :: r3 => (parseJItems fuel r3).map (fun p => (v :: p.1, p.2))
    | ']' :: r3 => some ([v], r3)
    | _ => none

/-- Comma-separated JSON object members up to `}`. -/
def parseJMembers : ℕ → List Char → Option (List (String × Json) × List Char)
  | 0, _ => none
  | fuel + 1, l =>
    match l.dropWhile jsonWsp with
    | '"' :: r1 => do
      let (k, r2) ← parseJStringChars (fuel + 1) r1
      match r2.dropWhile jsonWsp with
      | ':' :: r3 => do
        let (v, r4) ← parseJValue fuel r3
        match r4.dropWhile jsonWsp with
        | ',' :: r5 => (parseJMembers fuel r5).map (fun p => ((⟨k⟩, v) :: p.1, p.2))
        | '}' :: r5 => some ([(⟨k⟩, v)], r5)
        | _ => none
      | _ => none
    | _ => none

end

/-- The `JSON.parse` model: parse one value and require only whitespace to
remain (otherwise `JSON.parse` throws); `none` models the thrown
`SyntaxError`.  Each nesting level consumes at least one character, so
`length + 1` fuel suffices. -/
def jsonParse (s : String) : Option Json :=
  match parseJValue (s.length + 1) s.toList with
  | some (v, rest) => if rest.dropWhile jsonWsp = [] then some v else none
  | none => none

/-- The backquote character (code 96). -/
def backquote : Char := Char.ofNat 96

/-- Remainder after the first triple-backquote fence, if any. -/
def findFence : List Char → Option (List Char)
  | [] => none
  | c :: rest =>
    if c = backquote ∧ rest.take 2 = [backquote, backquote] then some (rest.drop 2)
    else findFence rest

/-- The characters before the next triple-backquote fence, if one exists. -/
def takeUntilFence : List Char → Option (List Char)
  | [] => none
  | c :: rest =>
    if c = backquote ∧ rest.take 2 = [backquote, backquote] then some []
    else (takeUntilFence rest).map (c :: ·)

/-- The fenced-block extraction of `parseJSON`
(`raw.match(/```(?:json)?\s*([\s\S]*?)```/)`): content of the first fenced
block, with an optional `json` tag and leading whitespace skipped and the
capture trimmed; the raw string itself when no complete fenced block
exists. -/
def extractFenced (raw : String) : String :=
  match findFence raw.toList with
  | none => raw
  | some afterOpen =>
    let afterTag :=
      if ['j', 's', 'o', 'n'].isPrefixOf afterOpen then afterOpen.drop 4 else afterOpen
    match takeUntilFence (afterTag.dropWhile Char.isWhitespace) with
    | none => raw
    | some content => ⟨trimChars content⟩

/-- `parseJSON` from the source: extract the fenced block (or use the raw
text) and `JSON.parse` it; `none` models the propagated `SyntaxError`. -/
def parseJSON (raw : String) : Option Json :=
  jsonParse (extractFenced raw)

/-- The `errorMap` of the request handler's catch-all, including its generic
default `(500, "Analysis failed. Please try again.")`. -/
def errorResponseFor (message : String) : ℕ × String :=
  if message = "RATE_LIMITED" then (429, "Service is busy. Please try again in a moment.")
  else if message = "CREDITS_EXHAUSTED" then (503, "Service temporarily unavailable.")
  else if message = "SERVICE_CONFIG_ERROR" then (503, "Service configuration error.")
  else if message = "SERVICE_ERROR" then (503, "Analysis service unavailable. Please try again.")
  else if message = "EMPTY_RESPONSE" then (500, "Analysis incomplete. Please try again.")
  else (500, "Analysis failed. Please try again.")

/-- Outcome of the handler slice that turns a model response into a scored
result or an HTTP error response. -/
inductive HandlerOutcome
  | success (s : ScoringResult)
  | failure (status : ℕ) (message : String)

/-- The factor-discovery-through-scoring slice of the request handler: parse
the model's raw text (`pass1_discoverFactorsAndData`); on failure the thrown
`SyntaxError` (message `syntaxMsg`, which is never one of the five taxonomy
codes) reaches the catch-all and is mapped by `errorResponseFor`; on success
the payload is cast (`decode` models the unchecked `as Pass1Result` cast),
sanitized and scored. -/
def runDiscoveryAndScore (sqrtFn : ℚ → ℚ) (currentYear : ℤ) (budgetAmount : ℚ)
    (decode : Json → Pass1Result) (syntaxMsg : String) (raw : String) : HandlerOutcome :=
  match parseJSON raw with
  | none => .failure (errorResponseFor syntaxMsg).1 (errorResponseFor syntaxMsg).2
  | some j => .success (pass2_score sqrtFn currentYear (sanitizePass1 (decode j)) budgetAmount)

/-- The budget suffixes enumerated by claim C2. -/
inductive BudgetSuffix
  | lakh | lac | crore | cr | bareL | kilo | plain
deriving DecidableEq

/-- The literal characters of each suffix (in cleaned, lower-case form). -/
def BudgetSuffix.chars : BudgetSuffix → List Char
  | .lakh => ['l', 'a', 'k', 'h']
  | .lac => ['l', 'a', 'c']
  | .crore => ['c', 'r', 'o', 'r', 'e']
  | .cr => ['c', 'r']
  | .bareL => ['l']
  | .kilo => ['k']
  | .plain => []

/-- The multiplier claim C2 assigns to each suffix. -/
def BudgetSuffix.mult : BudgetSuffix → ℚ
  | .lakh => 100000
  | .lac => 100000
  | .crore => 10000000
  | .cr => 10000000
  | .bareL => 100000
  | .kilo => 1000
  | .plain => 1

/-- The character for decimal digit `d`. -/
def digitChar (d : ℕ) : Char := Char.ofNat (48 + d)

/-- Characters of the optional fractional part of a number literal. -/
def dotPart : Option (List ℕ) → List Char
  | none => []
  | some f => '.' :: f.map digitChar

/-- Characters of a decimal number literal: integer digits, optionally a dot
and fractional digits. -/
def numLitChars (ds : List ℕ) (fs : Option (List ℕ)) : List Char :=
  ds.map digitChar ++ dotPart fs

/-- Value of a decimal digit list read as a base-10 natural number. -/
def natOfDigits (ds : List ℕ) : ℕ := ds.foldl (fun a d => 10 * a + d) 0

/-- Rational value of the optional fractional part of a number literal. -/
def fracVal : Option (List ℕ) → ℚ
  | none => 0
  | some f => (natOfDigits f : ℚ) / 10 ^ f.length

/-- Rational value of a decimal number literal. -/
def numLitVal (ds : List ℕ) (fs : Option (List ℕ)) : ℚ :=
  (natOfDigits ds : ℚ) + fracVal fs

section BudgetLemmas

lemma mem_of_isPrefixOf {pat l : List Char} {c : Char}
    (h : pat.isPrefixOf l = true) (hc : c ∈ pat) : c ∈ l := by
  have h' : pat <+: l := by simpa using h
  exact h'.subset hc

lemma containsSeq_eq_false {pat l : List Char} {c : Char}
    (hc : c ∈ pat) (hl : c ∉ l) : containsSeq pat l = false := by
  induction l with
  | nil =>
    cases pat with
    | nil => cases hc
    | cons p pt => simp [containsSeq, List.isPrefixOf]
  | cons a t ih =>
    have h1 : pat.isPrefixOf (a :: t) = false := by
      cases hp : pat.isPrefixOf (a :: t) with
      | false => rfl
      | true => exact absurd (mem_of_isPrefixOf hp hc) hl
    have h2 : containsSeq pat t = false :=
      ih (fun hm => hl (List.mem_cons_of_mem _ hm))
    simp [containsSeq, h1, h2]

lemma isPrefixOf_self_append (l t : List Char) : l.isPrefixOf (l ++ t) = true := by
  induction l with
  | nil => simp [List.isPrefixOf]
  | cons c l ih => simp [List.isPrefixOf, ih]

lemma containsSeq_cons_of {pat : List Char} (a : Char) {t : List Char}
    (h : containsSeq pat t = true) : containsSeq pat (a :: t) = true := by
  simp [containsSeq, h]

lemma containsSeq_self_append (pat t : List Char) : containsSeq pat (pat ++ t) = true := by
  cases pat with
  | nil =>
    cases t with
    | nil => rfl
    | cons c r => simp [containsSeq, List.isPrefixOf]
  | cons p pr =>
    have h := isPrefixOf_self_append (p :: pr) t
    simp only [List.cons_append] at h ⊢
    simp [containsSeq, h]

lemma containsSeq_middle (pat s t : List Char) : containsSeq pat (s ++ pat ++ t) = true := by
  induction s with
  | nil => simp only [List.nil_append]; exact containsSeq_self_append pat t
  | cons a s ih => simpa using containsSeq_cons_of a (by simpa using ih)

lemma mem_of_getLastQ {l : List Char} {a : Char} (h : l.getLast? = some a) : a ∈ l := by
  induction l with
  | nil => cases h
  | cons c t ih =>
    cases t with
    | nil => simp [List.getLast?] at h; simp [h]
    | cons d r =>
      rw [List.getLast?_cons_cons] at h
      exact List.mem_cons_of_mem _ (ih h)

lemma takeWhile_append_all {p : Char → Bool} {l1 l2 : List Char}
    (h : ∀ c ∈ l1, p c = true) : (l1 ++ l2).takeWhile p = l1 ++ l2.takeWhile p := by
  induction l1 with
  | nil => simp
  | cons c t ih =>
    have hc : p c = true := h c (by simp)
    simp [List.takeWhile_cons, hc, ih (fun x hx => h x (by simp [hx]))]

lemma takeWhile_all {p : Char → Bool} {l : List Char}
    (h : ∀ c ∈ l, p c = true) : l.takeWhile p = l := by
  induction l with
  | nil => rfl
  | cons c t ih =>
    simp [List.takeWhile_cons, h c (by simp), ih (fun x hx => h x (by simp [hx]))]

lemma takeWhile_eq_nil {p : Char → Bool} {l : List Char}
    (h : ∀ c ∈ l, p c = false) : l.takeWhile p = [] := by
  cases l with
  | nil => rfl
  | cons c t => simp [List.takeWhile_cons, h c (by simp)]

lemma digitChar_toNat {d : ℕ} (h : d < 10) : (digitChar d).toNat = 48 + d := by
  interval_cases d <;> rfl

lemma digitChar_isDigit {d : ℕ} (h : d < 10) : (digitChar d).isDigit = true := by
  interval_cases d <;> rfl

lemma digitChar_isNumChar {d : ℕ} (h : d < 10) : isNumChar (digitChar d) = true := by
  interval_cases d <;> rfl

lemma numChar_of_mem_numLit {ds : List ℕ} {fs : Option (List ℕ)} {c : Char}
    (hds : ∀ d ∈ ds, d < 10) (hfs : ∀ d ∈ fs.getD [], d < 10)
    (hc : c ∈ numLitChars ds fs) : isNumChar c = true := by
  unfold numLitChars dotPart at hc
  rcases List.mem_append.1 hc with hc | hc
  · obtain ⟨d, hd, rfl⟩ := List.mem_map.1 hc
    exact digitChar_isNumChar (hds d hd)
  · cases fs with
    | none => cases hc
    | some f =>
      rcases List.mem_cons.1 hc with rfl | hc
      · rfl
      · obtain ⟨d, hd, rfl⟩ := List.mem_map.1 hc
        exact digitChar_isNumChar (hfs d hd)

lemma digitsToNat_map {ds : List ℕ} (h : ∀ d ∈ ds, d < 10) :
    digitsToNat (ds.map digitChar) = natOfDigits ds := by
  unfold digitsToNat natOfDigits
  suffices hgen : ∀ a : ℕ,
      (ds.map digitChar).foldl (fun a c => 10 * a + (c.toNat - 48)) a =
        ds.foldl (fun a d => 10 * a + d) a from hgen 0
  induction ds with
  | nil => intro a; rfl
  | cons d t ih =>
    intro a
    have hd : d < 10 := h d (by simp)
    have := digitChar_toNat hd
    simp only [List.map_cons, List.foldl_cons, this]
    rw [Nat.add_sub_cancel_left]
    exact ih (fun x hx => h x (by simp [hx])) _

lemma not_mem_numLit {ds : List ℕ} {fs : Option (List ℕ)} {c : Char}
    (hds : ∀ d ∈ ds, d < 10) (hfs : ∀ d ∈ fs.getD [], d < 10)
    (hnum : isNumChar c = false) : c ∉ numLitChars ds fs := by
  intro h
  rw [numChar_of_mem_numLit hds hfs h] at hnum
  cases hnum

lemma not_mem_numLit_append {ds : List ℕ} {fs : Option (List ℕ)} {tail : List Char} {c : Char}
    (hds : ∀ d ∈ ds, d < 10) (hfs : ∀ d ∈ fs.getD [], d < 10)
    (hnum : isNumChar c = false) (htail : c ∉ tail) :
    c ∉ numLitChars ds fs ++ tail := by
  intro h
  rcases List.mem_append.1 h with h | h
  · exact not_mem_numLit hds hfs hnum h
  · exact htail h

lemma sufChars_not_num (suf : BudgetSuffix) : ∀ c ∈ suf.chars, isNumChar c = false := by
  cases suf <;> decide

lemma numLit_ne_nil {ds : List ℕ} {fs : Option (List ℕ)} (hne : ds ≠ []) :
    numLitChars ds fs ≠ [] := by
  cases ds with
  | nil => exact absurd rfl hne
  | cons d t => simp [numLitChars]

lemma budgetMultiplier_suffix {ds : List ℕ} {fs : Option (List ℕ)} (suf : BudgetSuffix)
    (hds : ∀ d ∈ ds, d < 10) (hfs : ∀ d ∈ fs.getD [], d < 10) (_hne : ds ≠ []) :
    budgetMultiplier (numLitChars ds fs ++ suf.chars) = suf.mult := by
  cases suf with
  | lakh =>
    have h1 : containsSeq ['l', 'a', 'k', 'h'] (numLitChars ds fs ++ ['l', 'a', 'k', 'h'])
        = true := by
      simpa using containsSeq_middle ['l', 'a', 'k', 'h'] (numLitChars ds fs) []
    simp [budgetMultiplier, BudgetSuffix.chars, BudgetSuffix.mult, h1]
  | lac =>
    have h1 : containsSeq ['l', 'a', 'c'] (numLitChars ds fs ++ ['l', 'a', 'c']) = true := by
      simpa using containsSeq_middle ['l', 'a', 'c'] (numLitChars ds fs) []
    simp [budgetMultiplier, BudgetSuffix.chars, BudgetSuffix.mult, h1]
  | crore =>
    have h1 : containsSeq ['l', 'a', 'k', 'h'] (numLitChars ds fs ++ ['c', 'r', 'o', 'r', 'e'])
        = false :=
      containsSeq_eq_false (c := 'a') (by decide)
        (not_mem_numLit_append hds hfs (by decide) (by decide))
    have h2 : containsSeq ['l', 'a', 'c'] (numLitChars ds fs ++ ['c', 'r', 'o', 'r', 'e'])
        = false :=
      containsSeq_eq_false (c := 'a') (by decide)
        (not_mem_numLit_append hds hfs (by decide) (by decide))
    have h3 : containsSeq ['c', 'r', 'o', 'r', 'e']
        (numLitChars ds fs ++ ['c', 'r', 'o', 'r', 'e']) = true := by
      simpa using containsSeq_middle ['c', 'r', 'o', 'r', 'e'] (numLitChars ds fs) []
    simp [budgetMultiplier, BudgetSuffix.chars, BudgetSuffix.mult, h1, h2, h3]
  | cr =>
    have h1 : containsSeq ['l', 'a', 'k', 'h'] (numLitChars ds fs ++ ['c', 'r']) = false :=
      containsSeq_eq_false (c := 'a') (by decide)
        (not_mem_numLit_append hds hfs (by decide) (by decide))
    have h2 : containsSeq ['l', 'a', 'c'] (numLitChars ds fs ++ ['c', 'r']) = false :=
      containsSeq_eq_false (c := 'a') (by decide)
        (not_mem_numLit_append hds hfs (by decide) (by decide))
    have h3 : containsSeq ['c', 'r'] (numLitChars ds fs ++ ['c', 'r']) = true := by
      simpa using containsSeq_middle ['c', 'r'] (numLitChars ds fs) []
    simp [budgetMultiplier, BudgetSuffix.chars, BudgetSuffix.mult, h1, h2, h3]
  | bareL =>
    have h1 : containsSeq ['l', 'a', 'k', 'h'] (numLitChars ds fs ++ ['l']) = false :=
      containsSeq_eq_false (c := 'a') (by decide)
        (not_mem_numLit_append hds hfs (by decide) (by decide))
    have h2 : containsSeq ['l', 'a', 'c'] (numLitChars ds fs ++ ['l']) = false :=
      containsSeq_eq_false (c := 'a') (by decide)
        (not_mem_numLit_append hds hfs (by decide) (by decide))
    have h3 : containsSeq ['c', 'r', 'o', 'r', 'e'] (numLitChars ds fs ++ ['l']) = false :=
      containsSeq_eq_false (c := 'c') (by decide)
        (not_mem_numLit_append hds hfs (by decide) (by decide))
    have h4 : containsSeq ['c', 'r'] (numLitChars ds fs ++ ['l']) = false :=
      containsSeq_eq_false (c := 'c') (by decide)
        (not_mem_numLit_append hds hfs (by decide) (by decide))
    simp [budgetMultiplier, BudgetSuffix.chars, BudgetSuffix.mult, h1, h2, h3, h4]
  | kilo =>
    have h1 : containsSeq ['l', 'a', 'k', 'h'] (numLitChars ds fs ++ ['k']) = false :=
      containsSeq_eq_false (c := 'a') (by decide)
        (not_mem_numLit_append hds hfs (by decide) (by decide))
    have h2 : containsSeq ['l', 'a', 'c'] (numLitChars ds fs ++ ['k']) = false :=
      containsSeq_eq_false (c := 'a') (by decide)
        (not_mem_numLit_append hds hfs (by decide) (by decide))
    have h3 : containsSeq ['c', 'r', 'o', 'r', 'e'] (numLitChars ds fs ++ ['k']) = false :=
      containsSeq_eq_false (c := 'c') (by decide)
        (not_mem_numLit_append hds hfs (by decide) (by decide))
    have h4 : containsSeq ['c', 'r'] (numLitChars ds fs ++ ['k']) = false :=
      containsSeq_eq_false (c := 'c') (by decide)
        (not_mem_numLit_append hds hfs (by decide) (by decide))
    have h6 : containsSeq ['k'] (numLitChars ds fs ++ ['k']) = true := by
      simpa using containsSeq_middle ['k'] (numLitChars ds fs) []
    simp [budgetMultiplier, BudgetSuffix.chars, BudgetSuffix.mult, h1, h2, h3, h4, h6]
  | plain =>
    have h1 : containsSeq ['l', 'a', 'k', 'h'] (numLitChars ds fs) = false :=
      containsSeq_eq_false (c := 'a') (by decide) (not_mem_numLit hds hfs (by decide))
    have h2 : containsSeq ['l', 'a', 'c'] (numLitChars ds fs) = false :=
      containsSeq_eq_false (c := 'a') (by decide) (not_mem_numLit hds hfs (by decide))
    have h3 : containsSeq ['c', 'r', 'o', 'r', 'e'] (numLitChars ds fs) = false :=
      containsSeq_eq_false (c := 'c') (by decide) (not_mem_numLit hds hfs (by decide))
    have h4 : containsSeq ['c', 'r'] (numLitChars ds fs) = false :=
      containsSeq_eq_false (c := 'c') (by decide) (not_mem_numLit hds hfs (by decide))
    have h5 : ¬ (numLitChars ds fs).getLast? = some 'l' := by
      intro h
      exact not_mem_numLit hds hfs (by decide) (mem_of_getLastQ h)
    have h6 : containsSeq ['k'] (numLitChars ds fs) = false :=
      containsSeq_eq_false (c := 'k') (by decide) (not_mem_numLit hds hfs (by decide))
    simp [budgetMultiplier, BudgetSuffix.chars, BudgetSuffix.mult, h1, h2, h3, h4, h5, h6]

lemma firstNumRun_numLit {ds : List ℕ} {fs : Option (List ℕ)} (suf : BudgetSuffix)
    (hds : ∀ d ∈ ds, d < 10) (hfs : ∀ d ∈ fs.getD [], d < 10) (hne : ds ≠ []) :
    firstNumRun (numLitChars ds fs ++ suf.chars) = some (numLitChars ds fs) := by
  obtain ⟨d0, ds', rfl⟩ : ∃ d0 ds', ds = d0 :: ds' := by
    cases ds with
    | nil => exact absurd rfl hne
    | cons d t => exact ⟨d, t, rfl⟩
  have hhead : numLitChars (d0 :: ds') fs = digitChar d0 :: (ds'.map digitChar ++ dotPart fs) := by
    simp [numLitChars]
  have h0 : isNumChar (digitChar d0) = true := digitChar_isNumChar (hds d0 (by simp))
  have htail : ∀ c ∈ ds'.map digitChar ++ dotPart fs, isNumChar c = true := by
    intro c hc
    have hcm : c ∈ numLitChars (d0 :: ds') fs := by
      rw [hhead]
      exact List.mem_cons_of_mem _ hc
    exact numChar_of_mem_numLit hds hfs hcm
  rw [hhead]
  simp only [List.cons_append, List.append_eq, firstNumRun, h0, if_true]
  rw [takeWhile_append_all htail, takeWhile_eq_nil (sufChars_not_num suf)]
  simp

lemma map_digitChar_isDigit {ds : List ℕ} (hds : ∀ d ∈ ds, d < 10) :
    ∀ c ∈ ds.map digitChar, c.isDigit = true := by
  intro c hc
  obtain ⟨d, hd, rfl⟩ := List.mem_map.1 hc
  exact digitChar_isDigit (hds d hd)

lemma parseFloatRun_numLit {ds : List ℕ} {fs : Option (List ℕ)}
    (hds : ∀ d ∈ ds, d < 10) (hfs : ∀ d ∈ fs.getD [], d < 10) (hne : ds ≠ []) :
    parseFloatRun (numLitChars ds fs) = some (numLitVal ds fs) := by
  have hmapne : ds.map digitChar ≠ [] := by
    cases ds with
    | nil => exact absurd rfl hne
    | cons d t => simp
  cases fs with
  | none =>
    have hlit : numLitChars ds none = ds.map digitChar := by simp [numLitChars, dotPart]
    have htw : (ds.map digitChar).takeWhile Char.isDigit = ds.map digitChar :=
      takeWhile_all (map_digitChar_isDigit hds)
    have hdrop : List.drop ds.length (List.map digitChar ds) = [] := by simp
    rw [hlit]
    simp [parseFloatRun, htw, hdrop, hmapne, digitsToNat_map hds, numLitVal, fracVal]
  | some f =>
    have hlit : numLitChars ds (some f) = ds.map digitChar ++ '.' :: f.map digitChar := by
      simp [numLitChars, dotPart]
    have htw : (ds.map digitChar ++ '.' :: f.map digitChar).takeWhile Char.isDigit =
        ds.map digitChar := by
      rw [takeWhile_append_all (map_digitChar_isDigit hds)]
      simp [List.takeWhile_cons]
    have htwf : (f.map digitChar).takeWhile Char.isDigit = f.map digitChar :=
      takeWhile_all (map_digitChar_isDigit (by simpa using hfs))
    rw [hlit]
    have hdf : digitsToNat (f.map digitChar) = natOfDigits f :=
      digitsToNat_map (show ∀ d ∈ f, d < 10 by simpa using hfs)
    simp [parseFloatRun, htw, List.drop_left, htwf, hmapne, digitsToNat_map hds, hdf,
      numLitVal, fracVal]

end BudgetLemmas


section SanitizeLemmas

lemma stripTags_sublist (l : List Char) : List.Sublist (stripTags l) l := by
  induction l using stripTags.induct with
  | case1 => simp [stripTags]
  | case2 rest h ih =>
    rw [stripTags, if_pos rfl, dif_pos h]
    exact ih.trans ((List.drop_sublist _ _).trans (List.sublist_cons_self _ _))
  | case3 rest h ih =>
    rw [stripTags, if_pos rfl, dif_neg h]
    exact ih.cons₂ _
  | case4 c rest hc ih =>
    rw [stripTags, if_neg hc]
    exact ih.cons₂ _

lemma removeAllCI_sublist (pat l : List Char) : List.Sublist (removeAllCI pat l) l := by
  induction l using removeAllCI.induct pat with
  | case1 => simp [removeAllCI]
  | case2 c rest h ih =>
    rw [removeAllCI, dif_pos h]
    exact ih.trans (List.drop_sublist _ _)
  | case3 c rest h ih =>
    rw [removeAllCI, dif_neg h]
    exact ih.cons₂ _

lemma removeAll_sublist (pat l : List Char) : List.Sublist (removeAll pat l) l := by
  induction l using removeAll.induct pat with
  | case1 => simp [removeAll]
  | case2 c rest h ih =>
    rw [removeAll, dif_pos h]
    exact ih.trans (List.drop_sublist _ _)
  | case3 c rest h ih =>
    rw [removeAll, dif_neg h]
    exact ih.cons₂ _

lemma removeOnAttr_sublist (l : List Char) : List.Sublist (removeOnAttr l) l := by
  induction l using removeOnAttr.induct with
  | case1 => simp [removeOnAttr]
  | case2 c => simp [removeOnAttr]
  | case3 c1 c2 rest h ih =>
    rw [removeOnAttr, dif_pos h]
    refine ih.trans ?_
    refine ((List.drop_sublist _ _).trans ?_)
    refine ((List.dropWhile_sublist _).trans ?_)
    refine ((List.drop_sublist _ _).trans ?_)
    exact (List.sublist_cons_self _ _).trans (List.sublist_cons_self _ _)
  | case4 c1 c2 rest h ih =>
    rw [removeOnAttr, dif_neg h]
    exact ih.cons₂ _

lemma removeDataHtml_sublist (l : List Char) : List.Sublist (removeDataHtml l) l := by
  induction l using removeDataHtml.induct with
  | case1 => simp [removeDataHtml]
  | case2 c rest h ih =>
    rw [removeDataHtml, dif_pos h]
    refine ih.trans ?_
    refine ((List.drop_sublist _ _).trans ?_)
    refine ((List.dropWhile_sublist _).trans ?_)
    exact List.drop_sublist _ _
  | case3 c rest h ih =>
    rw [removeDataHtml, dif_neg h]
    exact ih.cons₂ _

lemma trimChars_sublist (l : List Char) : List.Sublist (trimChars l) l := by
  unfold trimChars
  have h2 : List.Sublist
      ((l.dropWhile Char.isWhitespace).reverse.dropWhile Char.isWhitespace)
      (l.dropWhile Char.isWhitespace).reverse := List.dropWhile_sublist _
  have h3 := h2.reverse
  rw [List.reverse_reverse] at h3
  exact h3.trans (List.dropWhile_sublist _)

lemma sanitizeString_toList_sublist (s : String) :
    List.Sublist (sanitizeString s).toList (stripTags s.toList) := by
  show List.Sublist ((trimChars (removeAll "&#".toList (removeDataHtml (removeOnAttr
      (removeAllCI "javascript:".toList (stripTags s.toList)))))).take 5000) _
  exact ((List.take_sublist _ _).trans (trimChars_sublist _)).trans
    (((removeAll_sublist _ _).trans ((removeDataHtml_sublist _).trans
      ((removeOnAttr_sublist _).trans (removeAllCI_sublist _ _)))))

lemma not_tag_sublist_stripTags (l : List Char) :
    ¬ List.Sublist ['<', '>'] (stripTags l) := by
  induction l using stripTags.induct with
  | case1 => simp [stripTags]
  | case2 rest h ih =>
    rw [stripTags, if_pos rfl, dif_pos h]
    exact ih
  | case3 rest h ih =>
    rw [stripTags, if_pos rfl, dif_neg h]
    intro hs
    cases hs with
    | cons _ h2 => exact ih h2
    | cons₂ _ h2 =>
      have hm : '>' ∈ stripTags rest := List.singleton_sublist.1 h2
      exact h ((stripTags_sublist rest).subset hm)
  | case4 c rest hc ih =>
    rw [stripTags, if_neg hc]
    intro hs
    cases hs with
    | cons _ h2 => exact ih h2
    | cons₂ _ h2 => exact hc rfl

lemma sanitizeString_no_tag (s : String) :
    ¬ List.Sublist ['<', '>'] (sanitizeString s).toList := fun h =>
  not_tag_sublist_stripTags s.toList (h.trans (sanitizeString_toList_sublist s))

lemma strTake_no_tag (n : ℕ) (s : String)
    (h : ¬ List.Sublist ['<', '>'] s.toList) :
    ¬ List.Sublist ['<', '>'] (strTake n s).toList := fun hs =>
  h (hs.trans (List.take_sublist _ _))

lemma strTake_length_le (n : ℕ) (s : String) : (strTake n s).length ≤ n := by
  have h : (strTake n s).length = (s.toList.take n).length := rfl
  rw [h, List.length_take]
  omega

end SanitizeLemmas


section ScoringLemmas

lemma foldl_add_bounds {α : Type} (g lo hi : α → ℚ)
    (hlo : ∀ a, lo a ≤ g a) (hhi : ∀ a, g a ≤ hi a) (l : List α) (init : ℚ) :
    init + (l.map lo).sum ≤ l.foldl (fun acc a => acc + g a) init ∧
    l.foldl (fun acc a => acc + g a) init ≤ init + (l.map hi).sum := by
  induction l generalizing init with
  | nil => simp
  | cons a t ih =>
    simp only [List.foldl_cons, List.map_cons, List.sum_cons]
    have h := ih (init + g a)
    constructor
    · have h1 := hlo a
      calc init + (lo a + (t.map lo).sum) ≤ init + g a + (t.map lo).sum := by linarith
        _ ≤ _ := h.1
    · have h2 := hhi a
      calc t.foldl (fun acc a => acc + g a) (init + g a) ≤ init + g a + (t.map hi).sum := h.2
        _ ≤ init + (hi a + (t.map hi).sum) := by linarith

lemma ite_mul_bounds (c : Prop) [Decidable c] (x y : ℚ) :
    min x y ≤ (if c then x else y) ∧ (if c then x else y) ≤ max x y := by
  split
  · exact ⟨min_le_left _ _, le_max_left _ _⟩
  · exact ⟨min_le_right _ _, le_max_right _ _⟩

lemma stumpContrib_bounds (f : GBDTFeatures) (s : DecisionStump) :
    min (s.leftValue * s.weight) (s.rightValue * s.weight) ≤ stumpContrib f s ∧
    stumpContrib f s ≤ max (s.leftValue * s.weight) (s.rightValue * s.weight) :=
  ite_mul_bounds _ _ _

lemma computeInteraction_bounds (f : GBDTFeatures) (s : InteractionStump) :
    min (s.leftValue * s.weight) (s.rightValue * s.weight) ≤ computeInteraction f s ∧
    computeInteraction f s ≤ max (s.leftValue * s.weight) (s.rightValue * s.weight) :=
  ite_mul_bounds _ _ _

lemma gbdtRaw_bounds (f : GBDTFeatures) :
    1479/50 ≤ gbdtRaw f ∧ gbdtRaw f ≤ 316/5 := by
  have hdsum_lo : (DECISION_STUMPS.map
      (fun s => min (s.leftValue * s.weight) (s.rightValue * s.weight))).sum = -67/4 := by
    norm_num [DECISION_STUMPS, min_def]
  have hdsum_hi : (DECISION_STUMPS.map
      (fun s => max (s.leftValue * s.weight) (s.rightValue * s.weight))).sum = 211/20 := by
    norm_num [DECISION_STUMPS, max_def]
  have hisum_lo : (INTERACTION_STUMPS.map
      (fun s => min (s.leftValue * s.weight) (s.rightValue * s.weight))).sum = -367/100 := by
    norm_num [INTERACTION_STUMPS, min_def]
  have hisum_hi : (INTERACTION_STUMPS.map
      (fun s => max (s.leftValue * s.weight) (s.rightValue * s.weight))).sum = 53/20 := by
    norm_num [INTERACTION_STUMPS, max_def]
  have hd := foldl_add_bounds (stumpContrib f)
    (fun s => min (s.leftValue * s.weight) (s.rightValue * s.weight))
    (fun s => max (s.leftValue * s.weight) (s.rightValue * s.weight))
    (fun s => (stumpContrib_bounds f s).1) (fun s => (stumpContrib_bounds f s).2)
    DECISION_STUMPS 50
  rw [hdsum_lo, hdsum_hi] at hd
  have hi := foldl_add_bounds (computeInteraction f)
    (fun s => min (s.leftValue * s.weight) (s.rightValue * s.weight))
    (fun s => max (s.leftValue * s.weight) (s.rightValue * s.weight))
    (fun s => (computeInteraction_bounds f s).1) (fun s => (computeInteraction_bounds f s).2)
    INTERACTION_STUMPS
    (DECISION_STUMPS.foldl (fun acc st => acc + stumpContrib f st) 50)
  rw [hisum_lo, hisum_hi] at hi
  unfold gbdtRaw
  have h1 := hd.1
  have h2 := hd.2
  have h3 := hi.1
  have h4 := hi.2
  constructor
  · linarith
  · linarith

lemma roundq_diff_close (a b : ℚ) :
    |roundq (a - b) - (roundq a - roundq b)| ≤ 1 := by
  have ha1 : ((⌊a + 1/2⌋ : ℤ) : ℚ) ≤ a + 1/2 := Int.floor_le _
  have ha2 : a + 1/2 - 1 < ((⌊a + 1/2⌋ : ℤ) : ℚ) := Int.sub_one_lt_floor _
  have hb1 : ((⌊b + 1/2⌋ : ℤ) : ℚ) ≤ b + 1/2 := Int.floor_le _
  have hb2 : b + 1/2 - 1 < ((⌊b + 1/2⌋ : ℤ) : ℚ) := Int.sub_one_lt_floor _
  have hc1 : ((⌊a - b + 1/2⌋ : ℤ) : ℚ) ≤ a - b + 1/2 := Int.floor_le _
  have hc2 : a - b + 1/2 - 1 < ((⌊a - b + 1/2⌋ : ℤ) : ℚ) := Int.sub_one_lt_floor _
  rw [abs_le]
  unfold roundq
  constructor
  · have h : (-2 : ℚ) < ((⌊a - b + 1/2⌋ : ℤ) : ℚ) - (((⌊a + 1/2⌋ : ℤ) : ℚ) -
        ((⌊b + 1/2⌋ : ℤ) : ℚ)) := by linarith
    have h2 : (-2 : ℤ) < ⌊a - b + 1/2⌋ - (⌊a + 1/2⌋ - ⌊b + 1/2⌋) := by exact_mod_cast h
    omega
  · have h : ((⌊a - b + 1/2⌋ : ℤ) : ℚ) - (((⌊a + 1/2⌋ : ℤ) : ℚ) -
        ((⌊b + 1/2⌋ : ℤ) : ℚ)) < 2 := by linarith
    have h2 : ⌊a - b + 1/2⌋ - (⌊a + 1/2⌋ - ⌊b + 1/2⌋) < (2 : ℤ) := by exact_mod_cast h
    omega

lemma budgetFit_lt_implies_ratio_lt (z : ℚ) (h : min 100 (roundq (z * 100)) < 25) :
    z < 1/4 := by
  have h1 : roundq (z * 100) < 25 := by
    rcases min_lt_iff.1 h with h | h
    · norm_num at h
    · exact h
  rw [roundq] at h1
  have h2 : z * 100 + 1/2 < ((25 : ℤ) : ℚ) := Int.floor_lt.1 h1
  push_cast at h2
  linarith

end ScoringLemmas

/-- C2 (amended): for every budget string whose cleaned form is a decimal
number literal followed by one of the recognised suffixes, `parseBudget`
returns the number times the suffix multiplier, with the precedence order of
the source; for the empty string, the `Not specified` sentinel, and any
string whose cleaned form contains no digit-or-dot character, it returns the
default 500000.  (A string such as `"."`, whose first `[\d.]+` run contains
no digit, instead yields `NaN`; see the counterexample.) -/
theorem parseBudget_spec :
    (∀ (s : String) (ds : List ℕ) (fs : Option (List ℕ)) (suf : BudgetSuffix),
      s ≠ "" → s ≠ "Not specified" →
      (∀ d ∈ ds, d < 10) → (∀ d ∈ fs.getD [], d < 10) → ds ≠ [] →
      cleanBudget s = numLitChars ds fs ++ suf.chars →
      parseBudget s = some (numLitVal ds fs * suf.mult))
    ∧ (∀ s : String, s ≠ "" → s ≠ "Not specified" →
        (∀ c ∈ cleanBudget s, isNumChar c = false) →
        parseBudget s = some 500000)
    ∧ parseBudget "" = some 500000
    ∧ parseBudget "Not specified" = some 500000 := by
  refine ⟨?_, ?_, rfl, rfl⟩
  · intro s ds fs suf hs1 hs2 hds hfs hne hclean
    unfold parseBudget
    rw [if_neg (by simp [hs1, hs2])]
    simp only [hclean, firstNumRun_numLit suf hds hfs hne,
      budgetMultiplier_suffix suf hds hfs hne, parseFloatRun_numLit hds hfs hne]
    simp
  · intro s hs1 hs2 hnone
    have hrun : firstNumRun (cleanBudget s) = none := by
      generalize hl : cleanBudget s = l at hnone
      clear hl
      induction l with
      | nil => rfl
      | cons c t ih =>
        have hc : isNumChar c = false := hnone c (by simp)
        simp only [firstNumRun, hc, Bool.false_eq_true, if_false]
        exact ih (fun x hx => hnone x (by simp [hx]))
    unfold parseBudget
    rw [if_neg (by simp [hs1, hs2])]
    simp [hrun]

/-- Witness for C2: `"2.5 Cr"` parses to 25,000,000 via the main theorem. -/
theorem parseBudget_spec_witness : parseBudget "2.5 Cr" = some 25000000 := by
  have h := parseBudget_spec.1 "2.5 Cr" [2] (some [5]) .cr (by decide) (by decide)
    (by decide) (by decide) (by decide) (by decide)
  rw [h]
  norm_num [numLitVal, natOfDigits, fracVal, BudgetSuffix.mult]

/-- C2 counterexample: the input `"."` is non-numeric (it denotes no number),
yet `parseBudget` does not return the 500000 default: its `[\d.]+` run is
`"."`, which `parseFloat` turns into `NaN` (modelled as `none`). -/
theorem parseBudget_dot_counterexample :
    parseBudget "." = none ∧ parseBudget "." ≠ some 500000 := by
  constructor
  · decide
  · decide

/-- C4: `sanitizeString` is not idempotent, contradicting the spec's
idempotence requirement: on `"&&##"` one application removes the inner
`"&#"` and thereby creates a new one (`"&#"`), which a second application
removes, yielding `""`. -/
theorem sanitizeString_not_idempotent :
    sanitizeString (sanitizeString "&&##") ≠ sanitizeString "&&##" ∧
    sanitizeString "&&##" = "&#" ∧ sanitizeString "&#" = "" := by
  have h1 : sanitizeString "&&##" = "&#" := by
    simp [sanitizeString, stripTags, removeAllCI, removeOnAttr, removeDataHtml, removeAll,
      trimChars, List.isPrefixOf]
  have h2 : sanitizeString "&#" = "" := by
    simp [sanitizeString, stripTags, removeAllCI, removeOnAttr, removeDataHtml, removeAll,
      trimChars, List.isPrefixOf]
  refine ⟨?_, h1, h2⟩
  rw [h1, h2]
  decide

/-- C7 counterexample: the sanitized factor set is not always of size 4 to 8:
an empty payload keeps 0 factors and a ten-factor payload keeps all 10 (the
code slices at 10, not 8, and enforces no minimum). -/
theorem sanitizePass1_factor_count_counterexample :
    (sanitizePass1 emptyPass1).factors.length = 0 ∧
    (sanitizePass1 tenFactorPass1).factors.length = 10 := by
  constructor
  · simp [sanitizePass1, emptyPass1]
  · simp [sanitizePass1, tenFactorPass1, emptyPass1]

/-- C7 (amended): the only factor-count guarantee the sanitizer gives is an
upper bound of 10 (`slice(0, 10)`); the 4-to-8 range is requested from the
model in the prompt but never enforced. -/
theorem sanitizePass1_factor_count_le_ten (p : Pass1Result) :
    (sanitizePass1 p).factors.length ≤ 10 := by
  simp only [sanitizePass1, List.length_map, List.length_take]
  omega

/-- C5: sanitized output is fully clamped and cleaned: factor weights lie in
`[0,1]`, factor scores are integers in `[0,100]`, string fields respect
their caps and contain no `<`-before-`>` pair (hence no `<script>` tag
survives), market confidence and risk severity are coerced to their allowed
enum values, and numeric summary fields are clamped. -/
theorem sanitize_output_clean (p : Pass1Result) :
    (∀ f ∈ (sanitizePass1 p).factors,
      0 ≤ f.weight ∧ f.weight ≤ 1 ∧
      0 ≤ f.score ∧ f.score ≤ 100 ∧ f.score.den = 1 ∧
      f.name.length ≤ 100 ∧ f.reasoning.length ≤ 500 ∧
      ¬ List.Sublist ['<', '>'] f.name.toList ∧
      ¬ List.Sublist ['<', '>'] f.reasoning.toList) ∧
    (∀ d ∈ (sanitizePass1 p).marketData,
      (d.confidence = "high" ∨ d.confidence = "medium" ∨ d.confidence = "low") ∧
      d.metric.length ≤ 100 ∧ d.unit.length ≤ 20 ∧ d.source.length ≤ 200 ∧
      ¬ List.Sublist ['<', '>'] d.metric.toList) ∧
    0 ≤ (sanitizePass1 p).avgProfitMargin ∧ (sanitizePass1 p).avgProfitMargin ≤ 1 ∧
    0 ≤ (sanitizePass1 p).estimatedSetupCostMin ∧
    (∀ q : Pass3Data, ∀ r ∈ (sanitizePass3 q).risks,
      r.severity = "low" ∨ r.severity = "medium" ∨ r.severity = "high") := by
  refine ⟨?_, ?_, ?_, ?_, ?_, ?_⟩
  · intro f hf
    simp only [sanitizePass1, List.mem_map] at hf
    obtain ⟨g, hg, rfl⟩ := hf
    refine ⟨le_max_left _ _, max_le (by norm_num) (min_le_left _ _), ?_, ?_, ?_, ?_, ?_, ?_, ?_⟩
    · simp only [sanitizeFactor]
      have h : (0 : ℤ) ≤ max 0 (min 100 (roundq (orDefault g.score 0))) := le_max_left _ _
      exact_mod_cast h
    · simp only [sanitizeFactor]
      have h : (max 0 (min 100 (roundq (orDefault g.score 0))) : ℤ) ≤ 100 := by
        have := min_le_left (100 : ℤ) (roundq (orDefault g.score 0))
        omega
      exact_mod_cast h
    · simp only [sanitizeFactor]
      exact Rat.den_intCast _
    · exact strTake_length_le _ _
    · exact strTake_length_le _ _
    · exact strTake_no_tag _ _ (sanitizeString_no_tag _)
    · exact strTake_no_tag _ _ (sanitizeString_no_tag _)
  · intro d hd
    simp only [sanitizePass1, List.mem_map] at hd
    obtain ⟨e, he, rfl⟩ := hd
    refine ⟨?_, strTake_length_le _ _, strTake_length_le _ _, strTake_length_le _ _,
      strTake_no_tag _ _ (sanitizeString_no_tag _)⟩
    simp only [sanitizeMarketData]
    split
    · next h => tauto
    · simp
  · exact le_max_left _ _
  · exact max_le (by norm_num) (min_le_left _ _)
  · exact le_max_left _ _
  · intro q r hr
    simp only [sanitizePass3, List.mem_map] at hr
    obtain ⟨t, ht, rfl⟩ := hr
    simp only [sanitizeRisk]
    split
    · next h => tauto
    · simp

/-- Witness for C5: the concrete malicious payload `badPass1` (weight 1.5,
score 150, a script tag in the name, confidence `"certain"`) is fully
cleaned by the sanitizer. -/
theorem sanitize_output_clean_witness :
    0 ≤ (sanitizeFactor badFactor).weight ∧ (sanitizeFactor badFactor).weight ≤ 1 ∧
    0 ≤ (sanitizeFactor badFactor).score ∧ (sanitizeFactor badFactor).score ≤ 100 ∧
    ¬ List.Sublist ['<', '>'] (sanitizeFactor badFactor).name.toList ∧
    ((sanitizeMarketData badMarketData).confidence = "high" ∨
      (sanitizeMarketData badMarketData).confidence = "medium" ∨
      (sanitizeMarketData badMarketData).confidence = "low") := by
  have h := sanitize_output_clean badPass1
  have hf := h.1 (sanitizeFactor badFactor)
    (by simp [sanitizePass1, badPass1, emptyPass1])
  have hd := h.2.1 (sanitizeMarketData badMarketData)
    (by simp [sanitizePass1, badPass1, emptyPass1])
  exact ⟨hf.1, hf.2.1, hf.2.2.1, hf.2.2.2.1, hf.2.2.2.2.2.2.2.1, hd.1⟩


/-- C10: for every feature vector the ensemble prediction lies in the band
`[25, 70]` (indeed in `[29.58, 63.2]` before rounding): the base value 50
plus the largest possible positive contributions stays below 70 and plus the
largest negative contributions stays above 25, so the final `[0,100]` clamp
is never active (`gbdtPredict` equals the rounded raw prediction) and scores
near 0 or 100 are unattainable. -/
theorem gbdtPredict_band (f : GBDTFeatures) :
    25 ≤ gbdtPredict f ∧ gbdtPredict f ≤ 70 ∧
    gbdtPredict f = roundq (gbdtRaw f) := by
  obtain ⟨hlo, hhi⟩ := gbdtRaw_bounds f
  have hclamp : min 100 (max 0 (gbdtRaw f)) = gbdtRaw f := by
    rw [max_eq_right (by linarith), min_eq_right (by linarith)]
  unfold gbdtPredict
  rw [hclamp]
  refine ⟨?_, ?_, rfl⟩
  · rw [roundq, Int.le_floor]
    push_cast
    linarith
  · rw [roundq]
    have h := Int.floor_le (gbdtRaw f + 1/2)
    have h2 : ((⌊gbdtRaw f + 1/2⌋ : ℤ) : ℚ) ≤ 70 := by linarith
    exact_mod_cast h2

/-- C8: for a sanitized factor set (scores in `[0,100]`, weights in `[0,1]`)
the weighted mean factor score computed by `extractFeatures` lies in
`[0,100]` even when the weights do not sum to 1 (the sum is normalised by
the total weight), and a zero total weight falls back to 50 instead of
dividing by zero. -/
theorem extractFeatures_avg_bounds (sqrtFn : ℚ → ℚ) (p : Pass1Result) (b : ℚ)
    (hw : ∀ f ∈ p.factors, 0 ≤ f.weight ∧ f.weight ≤ 1)
    (hs : ∀ f ∈ p.factors, 0 ≤ f.score ∧ f.score ≤ 100) :
    (0 ≤ (extractFeatures sqrtFn p b).avgFactorScore ∧
      (extractFeatures sqrtFn p b).avgFactorScore ≤ 100) ∧
    ((p.factors.map (fun f => f.weight)).sum = 0 →
      (extractFeatures sqrtFn p b).avgFactorScore = 50) := by
  have havg : (extractFeatures sqrtFn p b).avgFactorScore =
      (if 0 < (p.factors.map (fun f => f.weight)).sum
        then (p.factors.map (fun f => f.score * f.weight)).sum /
          (p.factors.map (fun f => f.weight)).sum
        else 50) := rfl
  have htw_nonneg : 0 ≤ (p.factors.map (fun f => f.weight)).sum := by
    apply List.sum_nonneg
    intro x hx
    obtain ⟨g, hg, rfl⟩ := List.mem_map.1 hx
    exact (hw g hg).1
  have hws_nonneg : 0 ≤ (p.factors.map (fun f => f.score * f.weight)).sum := by
    apply List.sum_nonneg
    intro x hx
    obtain ⟨g, hg, rfl⟩ := List.mem_map.1 hx
    exact mul_nonneg (hs g hg).1 (hw g hg).1
  have hws_le : (p.factors.map (fun f => f.score * f.weight)).sum ≤
      100 * (p.factors.map (fun f => f.weight)).sum := by
    rw [← List.sum_map_mul_left]
    apply List.sum_le_sum
    intro g hg
    exact mul_le_mul_of_nonneg_right (hs g hg).2 (hw g hg).1
  constructor
  · rw [havg]
    split
    · next htw =>
      constructor
      · positivity
      · rw [div_le_iff₀ htw]
        linarith
    · norm_num
  · intro h0
    rw [havg, if_neg (by rw [h0]; norm_num)]

/-- Witness for C8: on the empty factor set the total weight is 0 and the
weighted mean defaults to 50. -/
theorem extractFeatures_avg_bounds_witness :
    (extractFeatures (fun _ => 0) emptyPass1 500000).avgFactorScore = 50 := by
  have h := extractFeatures_avg_bounds (fun _ => 0) emptyPass1 500000
    (by simp [emptyPass1]) (by simp [emptyPass1])
  exact h.2 (by simp [emptyPass1])


/-- C1: the verdict of `pass2_score` is GO exactly when the score reaches 62
and the budget ratio reaches the 0.5 guard; it is AVOID exactly when it is
not GO and the score is below 35 or the budget ratio is below 0.25;
otherwise it is CAUTION.  In particular a budget ratio below 0.25 (or a
budget-fit percent below 25) forces AVOID regardless of the score, and no
budget ratio below 0.5 yields GO. -/
theorem pass2_verdict_policy (sqrtFn : ℚ → ℚ) (y : ℤ) (p : Pass1Result)
    (budget : String) (amount : ℚ) (hb : parseBudget budget = some amount) :
    ((pass2_score sqrtFn y p amount).verdict = Verdict.GO ↔
      (62 ≤ (pass2_score sqrtFn y p amount).score ∧
        1/2 ≤ (pass2_score sqrtFn y p amount).gbdtFeatures.budgetRatio)) ∧
    ((pass2_score sqrtFn y p amount).verdict = Verdict.AVOID ↔
      (¬(62 ≤ (pass2_score sqrtFn y p amount).score ∧
          1/2 ≤ (pass2_score sqrtFn y p amount).gbdtFeatures.budgetRatio) ∧
        ((pass2_score sqrtFn y p amount).score < 35 ∨
          (pass2_score sqrtFn y p amount).gbdtFeatures.budgetRatio < 1/4))) ∧
    ((pass2_score sqrtFn y p amount).verdict = Verdict.CAUTION ↔
      (¬(62 ≤ (pass2_score sqrtFn y p amount).score ∧
          1/2 ≤ (pass2_score sqrtFn y p amount).gbdtFeatures.budgetRatio) ∧
        ¬((pass2_score sqrtFn y p amount).score < 35 ∨
          (pass2_score sqrtFn y p amount).gbdtFeatures.budgetRatio < 1/4))) ∧
    ((pass2_score sqrtFn y p amount).gbdtFeatures.budgetRatio < 1/4 →
      (pass2_score sqrtFn y p amount).verdict = Verdict.AVOID) ∧
    ((pass2_score sqrtFn y p amount).budgetFitPercent < 25 →
      (pass2_score sqrtFn y p amount).verdict = Verdict.AVOID) ∧
    ((pass2_score sqrtFn y p amount).verdict = Verdict.GO →
      1/2 ≤ (pass2_score sqrtFn y p amount).gbdtFeatures.budgetRatio) := by
  have hv : (pass2_score sqrtFn y p amount).verdict =
      (if 62 ≤ gbdtPredict (extractFeatures sqrtFn p amount) ∧
          1/2 ≤ (extractFeatures sqrtFn p amount).budgetRatio then Verdict.GO
        else if gbdtPredict (extractFeatures sqrtFn p amount) < 35 ∨
            (extractFeatures sqrtFn p amount).budgetRatio < 1/4 then Verdict.AVOID
        else Verdict.CAUTION) := rfl
  have hsc : (pass2_score sqrtFn y p amount).score =
      gbdtPredict (extractFeatures sqrtFn p amount) := rfl
  have hft : (pass2_score sqrtFn y p amount).gbdtFeatures =
      extractFeatures sqrtFn p amount := rfl
  have hbfp : (pass2_score sqrtFn y p amount).budgetFitPercent =
      min 100 (roundq ((extractFeatures sqrtFn p amount).budgetRatio * 100)) := rfl
  rw [hv, hsc, hft, hbfp]
  split_ifs with h1 h2
  · refine ⟨iff_of_true rfl h1, iff_of_false (by decide) (fun hc => hc.1 h1),
      iff_of_false (by decide) (fun hc => hc.1 h1), ?_, ?_, fun _ => h1.2⟩
    · intro hlt
      exact absurd h1.2 (by linarith)
    · intro hlt
      have := budgetFit_lt_implies_ratio_lt _ hlt
      exact absurd h1.2 (by linarith)
  · exact ⟨iff_of_false (by decide) h1, iff_of_true rfl ⟨h1, h2⟩,
      iff_of_false (by decide) (fun hc => hc.2 h2), fun _ => rfl, fun _ => rfl,
      fun h => absurd h (by decide)⟩
  · refine ⟨iff_of_false (by decide) h1, iff_of_false (by decide) (fun hc => h2 hc.2),
      iff_of_true rfl ⟨h1, h2⟩, ?_, ?_, fun h => absurd h (by decide)⟩
    · intro hlt
      exact absurd (Or.inr hlt) h2
    · intro hlt
      exact absurd (Or.inr (budgetFit_lt_implies_ratio_lt _ hlt)) h2

/-- Witness for C1: with the default budget (500000, parsed from the
`Not specified` sentinel) against a 4,000,000 setup cost, the budget ratio
is 0.125 < 0.25 and the theorem forces the AVOID verdict. -/
theorem pass2_verdict_policy_witness :
    (pass2_score (fun _ => 0) 2025 poorBudgetPass1 500000).gbdtFeatures.budgetRatio < 1/4 ∧
    (pass2_score (fun _ => 0) 2025 poorBudgetPass1 500000).verdict = Verdict.AVOID := by
  have h := pass2_verdict_policy (fun _ => 0) 2025 poorBudgetPass1 "Not specified" 500000
    (by decide)
  have hbr : (pass2_score (fun _ => 0) 2025 poorBudgetPass1 500000).gbdtFeatures.budgetRatio
      = 1/8 := by
    show (extractFeatures (fun _ => 0) poorBudgetPass1 500000).budgetRatio = 1/8
    simp only [extractFeatures, poorBudgetPass1, emptyPass1, orDefault]
    norm_num [min_def]
  refine ⟨by rw [hbr]; norm_num, h.2.2.2.1 (by rw [hbr]; norm_num)⟩

/-- C3 counterexample: `pass2_score` reads the wall clock
(`new Date().getFullYear()`), so two runs on identical declared inputs that
happen in different calendar years (here 2025 and 2026) produce different
`ScoringResult`s — the projection `year` labels differ. -/
theorem pass2_score_clock_counterexample :
    pass2_score (fun _ => 0) 2025 emptyPass1 500000 ≠
      pass2_score (fun _ => 0) 2026 emptyPass1 500000 := by
  intro h
  have h2 := congrArg (fun r => r.financialProjections.map (fun yp => yp.year)) h
  simp only at h2
  exact absurd h2 (by decide)

/-- C3 (amended): `pass2_score` is deterministic in its declared inputs in
every field except the projection year labels: for any two clock years the
score, verdict, budget fit, break-even, ROI, features, factors and the
revenue/expense/profit columns coincide, and runs in the same calendar year
agree exactly. -/
theorem pass2_score_deterministic (sqrtFn : ℚ → ℚ) (y1 y2 : ℤ) (p : Pass1Result) (b : ℚ) :
    (pass2_score sqrtFn y1 p b).score = (pass2_score sqrtFn y2 p b).score ∧
    (pass2_score sqrtFn y1 p b).verdict = (pass2_score sqrtFn y2 p b).verdict ∧
    (pass2_score sqrtFn y1 p b).budgetFitPercent =
      (pass2_score sqrtFn y2 p b).budgetFitPercent ∧
    (pass2_score sqrtFn y1 p b).breakEvenMonths =
      (pass2_score sqrtFn y2 p b).breakEvenMonths ∧
    (pass2_score sqrtFn y1 p b).roi = (pass2_score sqrtFn y2 p b).roi ∧
    (pass2_score sqrtFn y1 p b).gbdtFeatures = (pass2_score sqrtFn y2 p b).gbdtFeatures ∧
    (pass2_score sqrtFn y1 p b).factors = (pass2_score sqrtFn y2 p b).factors ∧
    (pass2_score sqrtFn y1 p b).financialProjections.map
        (fun yp => (yp.revenue, yp.expenses, yp.profit)) =
      (pass2_score sqrtFn y2 p b).financialProjections.map
        (fun yp => (yp.revenue, yp.expenses, yp.profit)) ∧
    (y1 = y2 → pass2_score sqrtFn y1 p b = pass2_score sqrtFn y2 p b) := by
  refine ⟨rfl, rfl, rfl, rfl, rfl, rfl, rfl, ?_, ?_⟩
  · simp [pass2_score, List.map_map]
  · rintro rfl
    rfl

/-- Witness for C3: two runs with the same clock year agree exactly (via the
last conjunct of the determinism theorem). -/
theorem pass2_score_deterministic_witness :
    pass2_score (fun _ => 0) 2025 emptyPass1 500000 =
      pass2_score (fun _ => 0) 2025 emptyPass1 500000 :=
  (pass2_score_deterministic (fun _ => 0) 2025 2025 emptyPass1 500000).2.2.2.2.2.2.2.2 rfl

/-- C6 counterexample: feeding the year record (2025, revenue 50, expenses
3, profit 47) to `generateYearlyWithMonths`, January stores revenue
`round(50·0.07) = 4`, expenses `round(3/12) = 0` and profit
`round(3.5 − 0.25) = 3`, and `3 ≠ 4 − 0`: the stored monthly profit is the
independently rounded difference, not the difference of the stored values. -/
theorem generateYearlyWithMonths_profit_counterexample :
    ((generateYearlyWithMonths [⟨2025, 50, 3, 47⟩]).map (fun yw => yw.months.head?)) =
      [some { month := "Jan", revenue := 4, expenses := 0, profit := 3 }] ∧
    ((3 : ℤ) ≠ 4 - 0) := by
  constructor
  · simp only [generateYearlyWithMonths, monthNames, seasonalWeights, roundq,
      List.map_cons, List.map_nil, List.head?_map, List.enum]
    norm_num [List.enumFrom]
  · decide

/-- C6 (amended): every year record built by `pass2_score` satisfies
`profit = revenue − expenses` exactly, and `generateYearlyWithMonths`
preserves the year-level fields; each month record stores the rounded
difference of the unrounded monthly revenue and expense, which can differ
from the difference of the stored (rounded) revenue and expense by at most
1. -/
theorem projections_profit_consistency :
    (∀ (sqrtFn : ℚ → ℚ) (y : ℤ) (p : Pass1Result) (b : ℚ),
      ∀ rec ∈ (pass2_score sqrtFn y p b).financialProjections,
        rec.profit = rec.revenue - rec.expenses) ∧
    (∀ (sqrtFn : ℚ → ℚ) (y : ℤ) (p : Pass1Result) (b : ℚ),
      ∀ yw ∈ generateYearlyWithMonths (pass2_score sqrtFn y p b).financialProjections,
        yw.profit = yw.revenue - yw.expenses) ∧
    (∀ yearlyData : List YearProj, ∀ yw ∈ generateYearlyWithMonths yearlyData,
      ∀ m ∈ yw.months, |m.profit - (m.revenue - m.expenses)| ≤ 1) := by
  have hyear : ∀ (sqrtFn : ℚ → ℚ) (y : ℤ) (p : Pass1Result) (b : ℚ),
      ∀ rec ∈ (pass2_score sqrtFn y p b).financialProjections,
        rec.profit = rec.revenue - rec.expenses := by
    intro sqrtFn y p b rec hrec
    simp only [pass2_score, List.mem_map] at hrec
    obtain ⟨gi, _, rfl⟩ := hrec
    rfl
  refine ⟨hyear, ?_, ?_⟩
  · intro sqrtFn y p b yw hyw
    simp only [generateYearlyWithMonths, List.mem_map] at hyw
    obtain ⟨rec, hrec, rfl⟩ := hyw
    exact hyear sqrtFn y p b rec hrec
  · intro yearlyData yw hyw m hm
    simp only [generateYearlyWithMonths, List.mem_map] at hyw
    obtain ⟨rec, hrec, rfl⟩ := hyw
    simp only [List.mem_map] at hm
    obtain ⟨mi, _, rfl⟩ := hm
    exact roundq_diff_close _ _

/-- Witness for C6: the first projection of a concrete run satisfies the
exact year-level profit identity. -/
theorem projections_profit_consistency_witness :
    (⟨2025, 0, 0, 0⟩ : YearProj).profit =
      (⟨2025, 0, 0, 0⟩ : YearProj).revenue - (⟨2025, 0, 0, 0⟩ : YearProj).expenses := by
  apply projections_profit_consistency.1 (fun _ => 0) 2025 emptyPass1 500000
  have h : (pass2_score (fun _ => 0) 2025 emptyPass1 500000).financialProjections.head? =
      some ⟨2025, 0, 0, 0⟩ := by
    simp only [pass2_score, emptyPass1, List.head?_map, List.enum]
    norm_num [List.enumFrom, roundq, YearProj.mk.injEq]
  exact List.mem_of_mem_head? h


/-- C9 counterexample: when the model returns prose with no parseable JSON,
the request does fail — but the failure surfaces as the handler's generic
catch-all `500 "Analysis failed. Please try again."`, not as a structured
malformed-response entry: the error map has no such entry, and a
`SyntaxError` message is none of its five codes. -/
theorem malformed_response_counterexample :
    parseJSON "I cannot help with that." = none ∧
    runDiscoveryAndScore (fun _ => 0) 2025 500000 (fun _ => emptyPass1)
        "Unexpected token I in JSON at position 0" "I cannot help with that." =
      HandlerOutcome.failure 500 "Analysis failed. Please try again." ∧
    errorResponseFor "Unexpected token I in JSON at position 0" =
      (500, "Analysis failed. Please try again.") := by
  refine ⟨rfl, ?_, rfl⟩
  unfold runDiscoveryAndScore
  rw [show parseJSON "I cannot help with that." = none from rfl]
  rfl

/-- C9 (amended): if the model response contains no parseable JSON (neither
fenced nor bare), the request fails as a whole — `pass2_score` is never
reached and no `ScoringResult` is produced for any continuation of the
pipeline — but the failure is surfaced through the generic catch-all
`(500, "Analysis failed. Please try again.")`, because the propagated
`SyntaxError` message matches none of the five taxonomy codes. -/
theorem malformed_response_fatal (sqrtFn : ℚ → ℚ) (y : ℤ) (b : ℚ)
    (decode : Json → Pass1Result) (syntaxMsg : String) (raw : String)
    (hmsg : syntaxMsg ∉ (["RATE_LIMITED", "CREDITS_EXHAUSTED", "SERVICE_CONFIG_ERROR",
      "SERVICE_ERROR", "EMPTY_RESPONSE"] : List String))
    (hraw : parseJSON raw = none) :
    runDiscoveryAndScore sqrtFn y b decode syntaxMsg raw =
      HandlerOutcome.failure 500 "Analysis failed. Please try again." ∧
    ∀ s : ScoringResult,
      runDiscoveryAndScore sqrtFn y b decode syntaxMsg raw ≠ HandlerOutcome.success s := by
  obtain ⟨h1, h2, h3, h4, h5⟩ :
      syntaxMsg ≠ "RATE_LIMITED" ∧ syntaxMsg ≠ "CREDITS_EXHAUSTED" ∧
      syntaxMsg ≠ "SERVICE_CONFIG_ERROR" ∧ syntaxMsg ≠ "SERVICE_ERROR" ∧
      syntaxMsg ≠ "EMPTY_RESPONSE" := by
    simpa using hmsg
  have herr : errorResponseFor syntaxMsg = (500, "Analysis failed. Please try again.") := by
    unfold errorResponseFor
    rw [if_neg h1, if_neg h2, if_neg h3, if_neg h4, if_neg h5]
  have hrun : runDiscoveryAndScore sqrtFn y b decode syntaxMsg raw =
      HandlerOutcome.failure 500 "Analysis failed. Please try again." := by
    unfold runDiscoveryAndScore
    rw [hraw, herr]
  refine ⟨hrun, fun s h => ?_⟩
  rw [hrun] at h
  cases h

/-- Witness for C9: a concrete prose response with no JSON yields the
generic 500 response via the theorem. -/
theorem malformed_response_fatal_witness :
    runDiscoveryAndScore (fun _ => 0) 2025 500000 (fun _ => emptyPass1)
        "Unexpected end of JSON input" "no json here" =
      HandlerOutcome.failure 500 "Analysis failed. Please try again." :=
  (malformed_response_fatal (fun _ => 0) 2025 500000 (fun _ => emptyPass1)
    "Unexpected end of JSON input" "no json here" (by decide) rfl).1


end AskAiBiz
